import Mathlib

namespace Seelen

/-! Shallow embedding of the event-hook and state-store core of Seelen UI
(`src/background/hook.rs` and `src/background/state/application/mod.rs`).
Machine handles (`HWND` / `isize`) are modelled as `Int`, instants as `Nat`
milliseconds, and hash maps as association lists. -/

/-- Association-list model of a hash map: value of the first entry with the given key. -/
def alookup {α β : Type} [DecidableEq α] : List (α × β) → α → Option β
  | [], _ => none
  | p :: rest, a => if p.1 = a then some p.2 else alookup rest a

/-- Association-list model of hash-map insertion: replace the value of the first
entry with the key, or append a new entry when the key is absent. -/
def ainsert {α β : Type} [DecidableEq α] : List (α × β) → α → β → List (α × β)
  | [], a, b => [(a, b)]
  | p :: rest, a, b => if p.1 = a then (p.1, b) :: rest else p :: ainsert rest a b

/-- Association-list model of hash-map key removal (`HashMap::remove`). -/
def aerase {α β : Type} [DecidableEq α] : List (α × β) → α → List (α × β)
  | [], _ => []
  | p :: rest, a => if p.1 = a then aerase rest a else p :: aerase rest a

/-- Membership test on a list, modelling `Vec::contains`. -/
def containsE {α : Type} [DecidableEq α] : List α → α → Bool
  | [], _ => false
  | x :: xs, a => if x = a then true else containsE xs a

/-- Removal of the first occurrence of an element, modelling
`if let Some(pos) = v.iter().position(|e| e == &event) { v.remove(pos); }`. -/
def eraseFirst {α : Type} [DecidableEq α] : List α → α → List α
  | [], _ => []
  | x :: xs, a => if x = a then xs else x :: eraseFirst xs a

/-- Modelled from the spec: the `WinEvent` kind enumeration lives in
`winevent.rs`, which is not under `src/`; only the variants that the embedded
hook code inspects are distinguished, all remaining kinds are collapsed into
`other`. -/
inductive WinEvent : Type where
  | systemForeground
  | objectFocus
  | objectLocationChange
  | objectDestroy
  | other (code : Nat)
deriving DecidableEq, Repr

/-- Pending-suppression map of `HookManager`: window handle to ordered list of
event kinds awaiting suppression (`skip: HashMap<isize, Vec<WinEvent>>`). -/
abbrev SkipMap := List (Int × List WinEvent)

/-- Registration, modelling `HookManager::skip`:
`self.skip.entry(hwnd.0 as _).or_default().push(event)`. -/
def skipPush (m : SkipMap) (e : WinEvent) (h : Int) : SkipMap :=
  match alookup m h with
  | some v => ainsert m h (v ++ [e])
  | none => m ++ [(h, [e])]

/-- Modelling `HookManager::should_skip`: the handle's pending list contains the kind. -/
def skipShould (m : SkipMap) (e : WinEvent) (h : Int) : Bool :=
  match alookup m h with
  | some v => containsE v e
  | none => false

/-- Modelling `HookManager::skip_done`: remove the first pending occurrence of the
kind, and delete the handle's map entry when its list has become empty. -/
def skipConsume (m : SkipMap) (e : WinEvent) (h : Int) : SkipMap :=
  match alookup m h with
  | some v =>
    let v2 := eraseFirst v e
    if v2 = [] then aerase m h else ainsert m h v2
  | none => m

/-- Every pending list kept in the skip map is nonempty. -/
def noEmptyLists : SkipMap → Bool
  | [] => true
  | p :: rest => !p.2.isEmpty && noEmptyLists rest

/-- The `HookManager` struct of `hook.rs`, whose single field is the skip map. -/
structure HookManager where
  skip : SkipMap
deriving DecidableEq, Repr

def HookManager.skipAdd (m : HookManager) (e : WinEvent) (h : Int) : HookManager :=
  ⟨skipPush m.skip e h⟩

def HookManager.shouldSkip (m : HookManager) (e : WinEvent) (h : Int) : Bool :=
  skipShould m.skip e h

def HookManager.skipDone (m : HookManager) (e : WinEvent) (h : Int) : HookManager :=
  ⟨skipConsume m.skip e h⟩

/-- Payload of the `GlobalFocusChanged` notification (`FocusedApp` in `hook.rs`). -/
structure FocusedApp where
  hwnd : Int
  title : String
  name : String
  exe : Option String
deriving DecidableEq, Repr

/-- Environment of `HookManager::event`: window queries resolved through the
Windows API, the static ignore-list, the virtual-desktop backend variant and
the module-enablement flags read from the state snapshot. The list
`ignoreFocus` models the static `IGNORE_FOCUS` constant from
`utils::constants`, whose contents are not under `src/`. -/
structure HookEnv where
  title : Int → String
  appDisplayName : Int → Option String
  exe : Int → Option String
  isSeelenOverlay : Int → Bool
  ignoreFocus : List String
  vdIsSeelen : Bool
  wegEnabled : Bool
  wmEnabled : Bool
  monitors : Nat

/-- Observable outcome of one `HookManager::event` call: the updated manager,
the updated `LAST_ACTIVE_NOT_SEELEN` value, whether the skip-check consumed the
event, the emitted `GlobalFocusChanged` notifications, and which downstream
consumers the event was forwarded to. -/
structure EventOutcome where
  manager : HookManager
  lastActiveNotSeelen : Int
  skipped : Bool
  emissions : List FocusedApp
  forwardedVd : Bool
  forwardedWeg : Bool
  forwardedWm : Bool
  monitorsNotified : Nat
deriving DecidableEq, Repr

/-- The dispatch pipeline `HookManager::event` of `hook.rs`: skip-check first
(consuming the registration and stopping), then foreground bookkeeping, then
the focus ignore-list gate with the `GlobalFocusChanged` emission, then fan-out
to the virtual-desktop translator, the weg and window-manager modules and the
per-monitor instances. -/
def HookManager.event (env : HookEnv) (m : HookManager) (lastActive : Int)
    (e : WinEvent) (origin : Int) : EventOutcome :=
  if m.shouldSkip e origin then
    ⟨m.skipDone e origin, lastActive, true, [], false, false, false, 0⟩
  else
    let la := if e = WinEvent.systemForeground ∧ env.isSeelenOverlay origin = false
              then origin else lastActive
    if e = WinEvent.objectFocus ∨ e = WinEvent.systemForeground then
      if containsE env.ignoreFocus (env.title origin) then
        ⟨m, la, false, [], false, false, false, 0⟩
      else
        ⟨m, la, false,
         [⟨origin, env.title origin,
           (env.appDisplayName origin).getD "Error on App Name", env.exe origin⟩],
         env.vdIsSeelen, env.wegEnabled, env.wmEnabled, env.monitors⟩
    else
      ⟨m, la, false, [], env.vdIsSeelen, env.wegEnabled, env.wmEnabled, env.monitors⟩

/-- State of the location-changed debouncer: the `DICT` per-window instant map
and the `LAST_LOCATION_CHANGED` global, from `hook.rs`. -/
structure DebounceState where
  dict : List (Int × Nat)
  lastLocationChanged : Int
deriving DecidableEq, Repr

/-- The rate gate `location_delay_completed` of `hook.rs`, with `Instant::now()`
passed in as `now` (milliseconds). Returns the `should_continue` flag and the
updated debouncer state. -/
def location_delay_completed (now : Nat) (st : DebounceState) (origin : Int) :
    Bool × DebounceState :=
  match alookup st.dict origin with
  | some t =>
    if st.lastLocationChanged ≠ origin ∨ now - t > 50 then
      (true, ⟨ainsert st.dict origin now, origin⟩)
    else
      (false, st)
  | none => (true, ⟨ainsert st.dict origin now, origin⟩)

/-! Association-list lemmas. -/

theorem alookup_ainsert_self {α β : Type} [DecidableEq α] (m : List (α × β)) (k : α) (v : β) :
    alookup (ainsert m k v) k = some v := by
  induction m with
  | nil => simp [ainsert, alookup]
  | cons p rest ih =>
    by_cases h : p.1 = k
    · simp [ainsert, alookup, h]
    · simp [ainsert, alookup, h, ih]

theorem alookup_ainsert_ne {α β : Type} [DecidableEq α] (m : List (α × β)) (k a : α) (v : β)
    (h : k ≠ a) : alookup (ainsert m k v) a = alookup m a := by
  induction m with
  | nil => simp [ainsert, alookup, h]
  | cons p rest ih =>
    by_cases hp : p.1 = k
    · simp [ainsert, alookup, hp, h]
    · simp [ainsert, alookup, hp, ih]

theorem ainsert_ainsert {α β : Type} [DecidableEq α] (m : List (α × β)) (k : α) (v w : β) :
    ainsert (ainsert m k v) k w = ainsert m k w := by
  induction m with
  | nil => simp [ainsert]
  | cons p rest ih =>
    by_cases hp : p.1 = k
    · simp [ainsert, hp]
    · simp [ainsert, hp, ih]

theorem ainsert_alookup_id {α β : Type} [DecidableEq α] (m : List (α × β)) (k : α) (v : β)
    (h : alookup m k = some v) : ainsert m k v = m := by
  induction m with
  | nil => simp [alookup] at h
  | cons p rest ih =>
    obtain ⟨p1, p2⟩ := p
    by_cases hp : p1 = k
    · simp [alookup, hp] at h
      simp [ainsert, hp, h]
    · simp [alookup, hp] at h
      simp [ainsert, hp, ih h]

theorem alookup_append_of_none {α β : Type} [DecidableEq α] (m l : List (α × β)) (a : α)
    (h : alookup m a = none) : alookup (m ++ l) a = alookup l a := by
  induction m with
  | nil => simp
  | cons p rest ih =>
    by_cases hp : p.1 = a
    · simp [alookup, hp] at h
    · simp [alookup, hp] at h ⊢
      exact ih h

theorem aerase_of_none {α β : Type} [DecidableEq α] (m : List (α × β)) (a : α)
    (h : alookup m a = none) : aerase m a = m := by
  induction m with
  | nil => simp [aerase]
  | cons p rest ih =>
    by_cases hp : p.1 = a
    · simp [alookup, hp] at h
    · simp [alookup, hp] at h
      simp [aerase, hp, ih h]

theorem aerase_append_single {α β : Type} [DecidableEq α] (m : List (α × β)) (a : α) (v : β)
    (h : alookup m a = none) : aerase (m ++ [(a, v)]) a = m := by
  induction m with
  | nil => simp [aerase]
  | cons p rest ih =>
    by_cases hp : p.1 = a
    · simp [alookup, hp] at h
    · simp [alookup, hp] at h
      simp [aerase, hp, ih h]

theorem alookup_mem {α β : Type} [DecidableEq α] (m : List (α × β)) (a : α) (v : β)
    (h : alookup m a = some v) : (a, v) ∈ m := by
  induction m with
  | nil => simp [alookup] at h
  | cons p rest ih =>
    obtain ⟨p1, p2⟩ := p
    by_cases hp : p1 = a
    · simp [alookup, hp] at h
      subst hp
      subst h
      exact List.mem_cons_self _ _
    · simp [alookup, hp] at h
      exact List.mem_cons_of_mem _ (ih h)

theorem containsE_append_self {α : Type} [DecidableEq α] (v : List α) (e : α) :
    containsE (v ++ [e]) e = true := by
  induction v with
  | nil => simp [containsE]
  | cons x xs ih =>
    by_cases hx : x = e
    · simp [containsE, hx]
    · simp [containsE, hx, ih]

theorem eraseFirst_append_of_not_contains {α : Type} [DecidableEq α] (v : List α) (e : α)
    (h : containsE v e = false) : eraseFirst (v ++ [e]) e = v := by
  induction v with
  | nil => simp [eraseFirst]
  | cons x xs ih =>
    by_cases hx : x = e
    · simp [containsE, hx] at h
    · simp [containsE, hx] at h
      simp [eraseFirst, hx, ih h]

theorem noEmptyLists_mem (m : SkipMap) (p : Int × List WinEvent)
    (hm : noEmptyLists m = true) (hp : p ∈ m) : p.2 ≠ [] := by
  induction m with
  | nil => simp at hp
  | cons q rest ih =>
    simp [noEmptyLists, Bool.and_eq_true, List.isEmpty_iff] at hm
    rcases List.mem_cons.mp hp with h1 | h1
    · subst h1
      exact hm.1
    · exact ih hm.2 h1

theorem noEmptyLists_ainsert (m : SkipMap) (k : Int) (v : List WinEvent)
    (hm : noEmptyLists m = true) (hv : v ≠ []) : noEmptyLists (ainsert m k v) = true := by
  induction m with
  | nil => simp [ainsert, noEmptyLists, List.isEmpty_iff, hv]
  | cons p rest ih =>
    simp [noEmptyLists, Bool.and_eq_true, List.isEmpty_iff] at hm
    by_cases hp : p.1 = k
    · simp [ainsert, hp, noEmptyLists, Bool.and_eq_true, List.isEmpty_iff, hv, hm.2]
    · simp [ainsert, hp, noEmptyLists, Bool.and_eq_true, List.isEmpty_iff, hm.1, ih hm.2]

theorem noEmptyLists_append_single (m : SkipMap) (k : Int) (v : List WinEvent)
    (hm : noEmptyLists m = true) (hv : v ≠ []) : noEmptyLists (m ++ [(k, v)]) = true := by
  induction m with
  | nil => simp [noEmptyLists, List.isEmpty_iff, hv]
  | cons p rest ih =>
    simp [noEmptyLists, Bool.and_eq_true, List.isEmpty_iff] at hm
    simp [noEmptyLists, Bool.and_eq_true, List.isEmpty_iff, hm.1, ih hm.2]

/-! Equation lemmas for the skip-map operations and the debouncer gate. -/

theorem skipPush_eq_some (m : SkipMap) (e : WinEvent) (h : Int) (v : List WinEvent)
    (hl : alookup m h = some v) : skipPush m e h = ainsert m h (v ++ [e]) := by
  unfold skipPush
  rw [hl]

theorem skipPush_eq_none (m : SkipMap) (e : WinEvent) (h : Int)
    (hl : alookup m h = none) : skipPush m e h = m ++ [(h, [e])] := by
  unfold skipPush
  rw [hl]

theorem skipShould_eq_some (m : SkipMap) (e : WinEvent) (h : Int) (v : List WinEvent)
    (hl : alookup m h = some v) : skipShould m e h = containsE v e := by
  unfold skipShould
  rw [hl]

theorem skipConsume_eq_some (m : SkipMap) (e : WinEvent) (h : Int) (v : List WinEvent)
    (hl : alookup m h = some v) :
    skipConsume m e h =
      if eraseFirst v e = [] then aerase m h else ainsert m h (eraseFirst v e) := by
  unfold skipConsume
  rw [hl]

theorem ldc_eq_some (now : Nat) (st : DebounceState) (origin : Int) (t : Nat)
    (hl : alookup st.dict origin = some t) :
    location_delay_completed now st origin =
      if st.lastLocationChanged ≠ origin ∨ now - t > 50 then
        (true, ⟨ainsert st.dict origin now, origin⟩)
      else (false, st) := by
  unfold location_delay_completed
  rw [hl]

theorem ldc_eq_none (now : Nat) (st : DebounceState) (origin : Int)
    (hl : alookup st.dict origin = none) :
    location_delay_completed now st origin = (true, ⟨ainsert st.dict origin now, origin⟩) := by
  unfold location_delay_completed
  rw [hl]

theorem noEmptyLists_skipPush (m : SkipMap) (e : WinEvent) (h : Int)
    (hm : noEmptyLists m = true) : noEmptyLists (skipPush m e h) = true := by
  cases hl : alookup m h with
  | some v =>
    rw [skipPush_eq_some m e h v hl]
    exact noEmptyLists_ainsert m h (v ++ [e]) hm (by simp)
  | none =>
    rw [skipPush_eq_none m e h hl]
    exact noEmptyLists_append_single m h [e] hm (by simp)

/-- After a registration on a state with no matching pending registration, the
skip-check matches. -/
theorem skipShould_skipPush (m : SkipMap) (e : WinEvent) (h : Int) :
    skipShould (skipPush m e h) e h = true := by
  cases hl : alookup m h with
  | some v =>
    rw [skipPush_eq_some m e h v hl,
      skipShould_eq_some _ e h (v ++ [e]) (alookup_ainsert_self m h (v ++ [e]))]
    exact containsE_append_self v e
  | none =>
    have h1 : alookup (m ++ [(h, [e])]) h = some [e] := by
      rw [alookup_append_of_none m _ h hl]
      simp [alookup]
    rw [skipPush_eq_none m e h hl, skipShould_eq_some _ e h [e] h1]
    simp [containsE]

/-- Registering and then consuming a kind that was not already pending restores
the skip map exactly, provided the map holds no empty pending lists. -/
theorem skipConsume_skipPush (m : SkipMap) (e : WinEvent) (h : Int)
    (hns : skipShould m e h = false) (hinv : noEmptyLists m = true) :
    skipConsume (skipPush m e h) e h = m := by
  cases hl : alookup m h with
  | some v =>
    have hc : containsE v e = false := by
      rw [skipShould_eq_some m e h v hl] at hns
      exact hns
    have hv : v ≠ [] := noEmptyLists_mem m (h, v) hinv (alookup_mem m h v hl)
    rw [skipPush_eq_some m e h v hl,
      skipConsume_eq_some _ e h (v ++ [e]) (alookup_ainsert_self m h (v ++ [e])),
      eraseFirst_append_of_not_contains v e hc, if_neg hv, ainsert_ainsert,
      ainsert_alookup_id m h v hl]
  | none =>
    have h1 : alookup (m ++ [(h, [e])]) h = some [e] := by
      rw [alookup_append_of_none m _ h hl]
      simp [alookup]
    rw [skipPush_eq_none m e h hl, skipConsume_eq_some _ e h [e] h1]
    have h2 : eraseFirst [e] e = ([] : List WinEvent) := by simp [eraseFirst]
    rw [h2, if_pos rfl]
    exact aerase_append_single m h [e] hl

/-- C1: after one `HookManager::skip(handle, kind)` registration on a manager
with no matching pending registration and no retained empty lists, one matching
`HookManager::event` is suppressed at the skip-check (no emission, no fan-out),
the registration is removed so that the skip map returns exactly to its prior
contents, a second identical event is not suppressed, a handle that was absent
before the registration is absent again afterwards (its emptied entry is
deleted), and the no-empty-lists invariant is preserved. -/
theorem claimC1 (env : HookEnv) (m : HookManager) (la : Int) (e : WinEvent) (h : Int)
    (hns : m.shouldSkip e h = false) (hinv : noEmptyLists m.skip = true) :
    (m.skipAdd e h).shouldSkip e h = true ∧
    (HookManager.event env (m.skipAdd e h) la e h).skipped = true ∧
    (HookManager.event env (m.skipAdd e h) la e h).emissions = [] ∧
    (HookManager.event env (m.skipAdd e h) la e h).forwardedVd = false ∧
    (HookManager.event env (m.skipAdd e h) la e h).forwardedWeg = false ∧
    (HookManager.event env (m.skipAdd e h) la e h).forwardedWm = false ∧
    (HookManager.event env (m.skipAdd e h) la e h).monitorsNotified = 0 ∧
    (HookManager.event env (m.skipAdd e h) la e h).manager = m ∧
    (HookManager.event env
      ((HookManager.event env (m.skipAdd e h) la e h).manager) la e h).skipped = false ∧
    (alookup m.skip h = none →
      alookup (HookManager.event env (m.skipAdd e h) la e h).manager.skip h = none) ∧
    noEmptyLists (m.skipAdd e h).skip = true ∧
    noEmptyLists (HookManager.event env (m.skipAdd e h) la e h).manager.skip = true := by
  have hshould : (m.skipAdd e h).shouldSkip e h = true :=
    skipShould_skipPush m.skip e h
  have hround : (m.skipAdd e h).skipDone e h = m := by
    unfold HookManager.skipAdd HookManager.skipDone
    rw [skipConsume_skipPush m.skip e h hns hinv]
  have hev : HookManager.event env (m.skipAdd e h) la e h =
      ⟨(m.skipAdd e h).skipDone e h, la, true, [], false, false, false, 0⟩ := by
    unfold HookManager.event
    rw [if_pos hshould]
  refine ⟨hshould, ?_, ?_, ?_, ?_, ?_, ?_, ?_, ?_, ?_, ?_, ?_⟩
  · rw [hev]
  · rw [hev]
  · rw [hev]
  · rw [hev]
  · rw [hev]
  · rw [hev]
  · rw [hev]; exact hround
  · rw [hev]
    simp only
    rw [hround]
    unfold HookManager.event
    rw [if_neg (by rw [hns]; simp)]
    by_cases hk : e = WinEvent.objectFocus ∨ e = WinEvent.systemForeground
    · rw [if_pos hk]
      by_cases hi : containsE env.ignoreFocus (env.title h) = true
      · rw [if_pos hi]
      · rw [if_neg hi]
    · rw [if_neg hk]
  · intro habs
    rw [hev]
    simp only
    rw [hround]
    exact habs
  · exact noEmptyLists_skipPush m.skip e h hinv
  · rw [hev]
    simp only
    rw [hround]
    exact hinv

/-- Witness for C1 at a concrete manager, handle and kind. -/
theorem claimC1_witness :
    (HookManager.shouldSkip ⟨[]⟩ WinEvent.objectLocationChange 42 = false ∧
      noEmptyLists ([] : SkipMap) = true) ∧
    (HookManager.event
      ⟨fun _ => "t", fun _ => none, fun _ => none, fun _ => false, [], true, true, true, 1⟩
      (HookManager.skipAdd ⟨[]⟩ WinEvent.objectLocationChange 42)
      0 WinEvent.objectLocationChange 42).skipped = true := by
  constructor
  · exact ⟨by decide, by decide⟩
  · exact (claimC1
      ⟨fun _ => "t", fun _ => none, fun _ => none, fun _ => false, [], true, true, true, 1⟩
      ⟨[]⟩ 0 WinEvent.objectLocationChange 42 (by decide) (by decide)).2.1

/-- C2: `location_delay_completed` returns true exactly when the global
last-target differs from the handle, or the handle has no recorded timestamp,
or more than 50 ms have elapsed since the handle's recorded timestamp; and on
returning true it updates the handle's timestamp to now and the global
last-target to the handle. -/
theorem claimC2 (now : Nat) (st : DebounceState) (origin : Int) :
    ((location_delay_completed now st origin).1 = true ↔
      st.lastLocationChanged ≠ origin ∨
      (∃ t, alookup st.dict origin = some t ∧ now - t > 50) ∨
      alookup st.dict origin = none) ∧
    ((location_delay_completed now st origin).1 = true →
      alookup (location_delay_completed now st origin).2.dict origin = some now ∧
      (location_delay_completed now st origin).2.lastLocationChanged = origin) := by
  cases hl : alookup st.dict origin with
  | some t =>
    rw [ldc_eq_some now st origin t hl]
    by_cases hc : st.lastLocationChanged ≠ origin ∨ now - t > 50
    · rw [if_pos hc]
      constructor
      · refine iff_of_true rfl ?_
        rcases hc with hc | hc
        · exact Or.inl hc
        · exact Or.inr (Or.inl ⟨t, rfl, hc⟩)
      · intro _
        exact ⟨alookup_ainsert_self st.dict origin now, rfl⟩
    · rw [if_neg hc]
      push_neg at hc
      constructor
      · refine iff_of_false (by simp) ?_
        push_neg
        refine ⟨hc.1, ?_, by simp⟩
        intro t2 ht2
        cases ht2
        exact hc.2
      · intro hfalse
        simp at hfalse
  | none =>
    rw [ldc_eq_none now st origin hl]
    constructor
    · simp
    · intro _
      exact ⟨alookup_ainsert_self st.dict origin now, rfl⟩

/-- Witness for C2: a handle different from the last target is processed and
both gate values are updated. -/
theorem claimC2_witness :
    (location_delay_completed 100 ⟨[(7, 30)], 3⟩ 7).1 = true ∧
    alookup (location_delay_completed 100 ⟨[(7, 30)], 3⟩ 7).2.dict 7 = some 100 ∧
    (location_delay_completed 100 ⟨[(7, 30)], 3⟩ 7).2.lastLocationChanged = 7 := by
  refine ⟨by decide, (claimC2 100 ⟨[(7, 30)], 3⟩ 7).2 (by decide)⟩

/-- C7: a focus or foreground event that is not pending suppression and whose
title is ignore-listed produces no `GlobalFocusChanged` emission and is
forwarded to no downstream consumer; when the title is not ignore-listed the
notification is emitted carrying handle, title, resolved display name (with
the placeholder on resolution failure) and executable path, and processing
continues to the downstream consumers. -/
theorem claimC7 (env : HookEnv) (m : HookManager) (la : Int) (e : WinEvent) (origin : Int)
    (hk : e = WinEvent.objectFocus ∨ e = WinEvent.systemForeground)
    (hns : m.shouldSkip e origin = false) :
    (containsE env.ignoreFocus (env.title origin) = true →
      (HookManager.event env m la e origin).emissions = [] ∧
      (HookManager.event env m la e origin).forwardedVd = false ∧
      (HookManager.event env m la e origin).forwardedWeg = false ∧
      (HookManager.event env m la e origin).forwardedWm = false ∧
      (HookManager.event env m la e origin).monitorsNotified = 0) ∧
    (containsE env.ignoreFocus (env.title origin) = false →
      (HookManager.event env m la e origin).emissions =
        [⟨origin, env.title origin,
          (env.appDisplayName origin).getD "Error on App Name", env.exe origin⟩] ∧
      (HookManager.event env m la e origin).forwardedVd = env.vdIsSeelen ∧
      (HookManager.event env m la e origin).forwardedWeg = env.wegEnabled ∧
      (HookManager.event env m la e origin).forwardedWm = env.wmEnabled ∧
      (HookManager.event env m la e origin).monitorsNotified = env.monitors) := by
  unfold HookManager.event
  rw [if_neg (by rw [hns]; simp)]
  constructor
  · intro hi
    rw [if_pos hk, if_pos hi]
    exact ⟨rfl, rfl, rfl, rfl, rfl⟩
  · intro hi
    rw [if_pos hk, if_neg (by rw [hi]; simp)]
    exact ⟨rfl, rfl, rfl, rfl, rfl⟩

/-- Witness for C7: a foreground event titled exactly an ignore-listed string
produces no emission; the same event with a different title produces exactly
one. -/
theorem claimC7_witness :
    (HookManager.event
      ⟨fun _ => "Task Switching", fun _ => none, fun _ => none, fun _ => false,
        ["Task Switching"], true, true, true, 2⟩
      ⟨[]⟩ 0 WinEvent.systemForeground 42).emissions = [] ∧
    (HookManager.event
      ⟨fun _ => "Notepad", fun _ => some "Notepad App", fun _ => some "notepad.exe",
        fun _ => false, ["Task Switching"], true, true, true, 2⟩
      ⟨[]⟩ 0 WinEvent.systemForeground 42).emissions =
      [⟨42, "Notepad", "Notepad App", some "notepad.exe"⟩] := by
  constructor
  · exact ((claimC7
      ⟨fun _ => "Task Switching", fun _ => none, fun _ => none, fun _ => false,
        ["Task Switching"], true, true, true, 2⟩
      ⟨[]⟩ 0 WinEvent.systemForeground 42 (Or.inr rfl) (by decide)).1 (by decide)).1
  · exact ((claimC7
      ⟨fun _ => "Notepad", fun _ => some "Notepad App", fun _ => some "notepad.exe",
        fun _ => false, ["Task Switching"], true, true, true, 2⟩
      ⟨[]⟩ 0 WinEvent.systemForeground 42 (Or.inr rfl) (by decide)).2 (by decide)).1

/-- C10: when `location_delay_completed` rejects an event it leaves the
debouncer state entirely unchanged, neither the per-window timestamp map nor
the global last-target handle is modified. -/
theorem claimC10 (now : Nat) (st : DebounceState) (origin : Int)
    (h : (location_delay_completed now st origin).1 = false) :
    (location_delay_completed now st origin).2 = st := by
  cases hl : alookup st.dict origin with
  | some t =>
    rw [ldc_eq_some now st origin t hl] at h ⊢
    by_cases hc : st.lastLocationChanged ≠ origin ∨ now - t > 50
    · rw [if_pos hc] at h
      simp at h
    · rw [if_neg hc]
  | none =>
    rw [ldc_eq_none now st origin hl] at h
    simp at h

/-- Witness for C10: a sub-50ms repeat event for the unchanged target window is
rejected and the state is untouched. -/
theorem claimC10_witness :
    (location_delay_completed 120 ⟨[(7, 100)], 7⟩ 7).1 = false ∧
    (location_delay_completed 120 ⟨[(7, 100)], 7⟩ 7).2 = ⟨[(7, 100)], 7⟩ := by
  exact ⟨by decide, claimC10 120 ⟨[(7, 100)], 7⟩ 7 (by decide)⟩

/-! Embedding of the state store (`src/background/state/application/mod.rs`).
Filesystem paths are lists of components, as built by `PathBuf::join`. -/

/-- Component-wise path prefix test, modelling `Path::starts_with`. -/
def pathPre : List String → List String → Bool
  | [], _ => true
  | _ :: _, [] => false
  | a :: as, b :: bs => a == b && pathPre as bs

/-- Modelled from the spec: the `VirtualDesktopStrategy` enum of `seelen_core`
(not under `src/`). -/
inductive VirtualDesktopStrategy : Type where
  | native
  | seelen
deriving DecidableEq, Repr

/-- Modelled from the spec: the toolbar section of `Settings` (defined in the
external `seelen_core` crate); only the selected-placeholder identity field,
which the embedded code reads and writes, is modelled. -/
structure FancyToolbarSettings where
  placeholder : String
deriving DecidableEq, Repr

/-- Modelled from the spec: the window-manager section of `Settings`; only the
selected default-layout identity field is modelled. -/
structure WindowManagerSettings where
  default_layout : String
deriving DecidableEq, Repr

/-- Modelled from the spec: the `Settings` category value (external crate);
only the fields accessed by the embedded code are modelled. -/
structure Settings where
  fancy_toolbar : FancyToolbarSettings
  window_manager : WindowManagerSettings
  virtual_desktop_strategy : VirtualDesktopStrategy
  selected_themes : List String
deriving DecidableEq, Repr

/-- Modelled from the spec: the shared `info` block of a resource (its
filename-derived identity), from `state::domain`. -/
structure ResourceInfo where
  filename : String
deriving DecidableEq, Repr

/-- Modelled from the spec: the per-facet style files of a theme. -/
structure ThemeStyles where
  weg : String
  toolbar : String
  wm : String
  launcher : String
  wall : String
deriving DecidableEq, Repr

/-- Modelled from the spec: a theme resource, from `state::domain`. -/
structure Theme where
  info : ResourceInfo
  styles : ThemeStyles
deriving DecidableEq, Repr

/-- Modelled from the spec: a placeholder resource; its parsed body is kept
abstract as `data`. -/
structure Placeholder where
  info : ResourceInfo
  data : String
deriving DecidableEq, Repr

/-- Modelled from the spec: a window-manager layout resource; its parsed body
is kept abstract as `data`. -/
structure WindowManagerLayout where
  info : ResourceInfo
  data : String
deriving DecidableEq, Repr

/-- Modelled from the spec: the taskbar pinned-items structure; kept abstract. -/
structure WegItems where
  data : String
deriving DecidableEq, Repr

/-- Modelled from the spec: an application identifier with its cached compiled
regex (`identifier.cache_regex()` fills the cache). -/
structure AppIdentifier where
  id : String
  regexCached : Bool
deriving DecidableEq, Repr

/-- Modelled from the spec: one per-app configuration override entry. -/
structure AppConfig where
  identifier : AppIdentifier
  is_bundled : Bool
deriving DecidableEq, Repr

/-- Marking helper for bundled template entries (`app.is_bundled = true`). -/
def AppConfig.markBundled (a : AppConfig) : AppConfig :=
  { a with is_bundled := true }

/-- Modelling `app.identifier.cache_regex()`. -/
def AppConfig.cacheRegex (a : AppConfig) : AppConfig :=
  { a with identifier := { a.identifier with regexCached := true } }

/-- The data fields of `FullState` plus the two directory roots; the runtime
handle and watcher fields are not data and are omitted. -/
structure FullState where
  data_dir : List String
  resources_dir : List String
  settings : Settings
  settings_by_app : List AppConfig
  themes : List (String × Theme)
  placeholders : List (String × Placeholder)
  layouts : List (String × WindowManagerLayout)
  weg_items : WegItems
  history : List (String × List String)
deriving DecidableEq, Repr

/-- A directory entry as seen by `read_dir`: a plain file with its extension
and content, or a sub-directory with its contained files (filename to
content). -/
inductive FsEntry : Type where
  | file (name : String) (ext : Option String) (content : String)
  | dir (name : String) (files : List (String × String))
deriving DecidableEq, Repr

/-- The `entry.file_name()` of a directory entry. -/
def FsEntry.name : FsEntry → String
  | .file n _ _ => n
  | .dir n _ => n

/-- Snapshot of the filesystem as the loads read it: `none` for a file means
the file does not exist; `none` for a directory means `read_dir` fails on it. -/
structure FS where
  settingsContent : Option String
  wegItemsContent : Option String
  historyContent : Option String
  userAppsContent : Option String
  themesBundled : Option (List FsEntry)
  themesUser : Option (List FsEntry)
  placeholdersBundled : Option (List FsEntry)
  placeholdersUser : Option (List FsEntry)
  layoutsBundled : Option (List FsEntry)
  layoutsUser : Option (List FsEntry)
  appsTemplates : Option (List FsEntry)

/-- Parsing and platform oracles: the serde parsers for each category, the
external `sanitize` methods, and `is_virtual_desktop_supported()`. -/
structure StateEnv where
  vdSupported : Bool
  parseSettings : String → Except String Settings
  sanitizeSettings : Settings → Settings
  parseTheme : String → Except String Theme
  parsePlaceholder : String → Except String Placeholder
  parseLayoutYaml : String → Except String WindowManagerLayout
  parseLayoutJson : String → Except String WindowManagerLayout
  parseWegItems : String → Except String WegItems
  sanitizeWegItems : WegItems → WegItems
  parseHistory : String → Except String (List (String × List String))
  parseAppConfigs : String → Except String (List AppConfig)

/-- A file persisted to disk by a load (`std::fs::write`), recorded with its
typed payload. -/
inductive FsWrite : Type where
  | settingsFile (s : Settings)
  | wegItemsFile (w : WegItems)
  | historyFile (h : List (String × List String))
  | appsFile (apps : List AppConfig)
deriving DecidableEq, Repr

/-- Result of one category load: the mutated state, the files written, and the
propagated error if the load aborted. -/
structure LoadOut where
  state : FullState
  writes : List FsWrite
  err : Option String
deriving DecidableEq, Repr

/-- Modelling `FullState::get_settings_from_path`: only a `json` extension is
accepted. -/
def get_settings_from_path (env : StateEnv) (ext : Option String) (content : String) :
    Except String Settings :=
  match ext with
  | some e => if e == "json" then env.parseSettings content
              else Except.error "Invalid settings file extension"
  | none => Except.error "Invalid settings file extension"

/-- Modelling `FullState::load_settings`: read and sanitize the user settings
file when it exists, force the Seelen virtual-desktop strategy when native
virtual desktops are unsupported, and persist the current settings when the
file was absent. -/
def FullState.load_settings (env : StateEnv) (fs : FS) (st : FullState) : LoadOut :=
  match fs.settingsContent with
  | some c =>
    match get_settings_from_path env (some "json") c with
    | Except.error e => ⟨st, [], some e⟩
    | Except.ok s0 =>
      let s1 := env.sanitizeSettings s0
      let s2 := if env.vdSupported then s1
                else { s1 with virtual_desktop_strategy := VirtualDesktopStrategy.seelen }
      ⟨{ st with settings := s2 }, [], none⟩
  | none =>
    let s2 := if env.vdSupported then st.settings
              else { st.settings with virtual_desktop_strategy := VirtualDesktopStrategy.seelen }
    ⟨{ st with settings := s2 }, [FsWrite.settingsFile s2], none⟩

/-- Modelling `FullState::load_weg_items`: parse and sanitize the user file
when it exists, otherwise persist the current items. -/
def FullState.load_weg_items (env : StateEnv) (fs : FS) (st : FullState) : LoadOut :=
  match fs.wegItemsContent with
  | some c =>
    match env.parseWegItems c with
    | Except.error e => ⟨st, [], some e⟩
    | Except.ok w => ⟨{ st with weg_items := env.sanitizeWegItems w }, [], none⟩
  | none => ⟨st, [FsWrite.wegItemsFile st.weg_items], none⟩

/-- Modelling `FullState::load_history`: parse the user file when it exists,
otherwise persist the current history. -/
def FullState.load_history (env : StateEnv) (fs : FS) (st : FullState) : LoadOut :=
  match fs.historyContent with
  | some c =>
    match env.parseHistory c with
    | Except.error e => ⟨st, [], some e⟩
    | Except.ok h => ⟨{ st with history := h }, [], none⟩
  | none => ⟨st, [FsWrite.historyFile st.history], none⟩

/-- Modelling `FullState::load_theme_from_file`: only `yml`/`yaml` extensions
are accepted. -/
def load_theme_from_file (env : StateEnv) (ext : Option String) (content : String) :
    Except String Theme :=
  match ext with
  | some e => if e == "yml" || e == "yaml" then env.parseTheme content
              else Except.error "Invalid theme file extension"
  | none => Except.error "Invalid theme file extension"

/-- One optional per-facet css override of a directory theme. -/
def themeCss (files : List (String × String)) (cssName : String) (current : String) : String :=
  match alookup files cssName with
  | some s => s
  | none => current

/-- Modelling `FullState::load_theme_from_dir`: require `theme.yml`, then
override each style facet from its optional css file. -/
def load_theme_from_dir (env : StateEnv) (files : List (String × String)) :
    Except String Theme :=
  match alookup files "theme.yml" with
  | none => Except.error "theme.yml not found"
  | some c =>
    match load_theme_from_file env (some "yml") c with
    | Except.error e => Except.error e
    | Except.ok t =>
      Except.ok { t with styles :=
        { weg := themeCss files "theme.weg.css" t.styles.weg
          toolbar := themeCss files "theme.toolbar.css" t.styles.toolbar
          wm := themeCss files "theme.wm.css" t.styles.wm
          launcher := themeCss files "theme.launcher.css" t.styles.launcher
          wall := themeCss files "theme.wall.css" t.styles.wall } }

/-- Loading of one directory entry of the themes category. -/
def loadThemeEntry (env : StateEnv) : FsEntry → Except String Theme
  | .dir _ files => load_theme_from_dir env files
  | .file _ ext c => load_theme_from_file env ext c

/-- The per-entry loop body of `load_themes`: a loadable entry is keyed by its
filename and inserted, a failing entry is logged and skipped. -/
def themesStep (env : StateEnv) (m : List (String × Theme)) (e : FsEntry) :
    List (String × Theme) :=
  match loadThemeEntry env e with
  | Except.ok t => ainsert m e.name { t with info := { t.info with filename := e.name } }
  | Except.error _ => m

/-- The entry loop of `load_themes` over a list of directory entries. -/
def themesFold (env : StateEnv) (entries : List FsEntry) (m : List (String × Theme)) :
    List (String × Theme) :=
  entries.foldl (themesStep env) m

/-- Modelling `FullState::load_themes`: chain the bundled-root entries with the
user-root entries and insert each loadable theme keyed by its filename. -/
def FullState.load_themes (env : StateEnv) (fs : FS) (st : FullState) : LoadOut :=
  match fs.themesBundled, fs.themesUser with
  | some bs, some us =>
    ⟨{ st with themes := themesFold env (bs ++ us) st.themes }, [], none⟩
  | _, _ => ⟨st, [], some "read_dir failed"⟩

/-- Modelling `FullState::load_placeholder_from_file`: only `yml`/`yaml`
extensions are accepted. -/
def load_placeholder_from_file (env : StateEnv) (ext : Option String) (content : String) :
    Except String Placeholder :=
  match ext with
  | some e => if e == "yml" || e == "yaml" then env.parsePlaceholder content
              else Except.error "Invalid placeholder file extension"
  | none => Except.error "Invalid placeholder file extension"

/-- The per-entry loop body of `load_placeholders`: directories are skipped, a
loadable file is keyed by its filename and inserted, a failing one skipped. -/
def placeholdersStep (env : StateEnv) (m : List (String × Placeholder)) :
    FsEntry → List (String × Placeholder)
  | .dir _ _ => m
  | .file n ext c =>
    match load_placeholder_from_file env ext c with
    | Except.ok p => ainsert m n { p with info := { p.info with filename := n } }
    | Except.error _ => m

/-- The entry loop of `load_placeholders` over a list of directory entries. -/
def placeholdersFold (env : StateEnv) (entries : List FsEntry)
    (m : List (String × Placeholder)) : List (String × Placeholder) :=
  entries.foldl (placeholdersStep env) m

/-- Modelling `FullState::load_placeholders`, including the trailing selected
identity validation that resets `settings.fancy_toolbar.placeholder` to
`"default.yml"` when the selected placeholder is not in the loaded set. -/
def FullState.load_placeholders (env : StateEnv) (fs : FS) (st : FullState) : LoadOut :=
  match fs.placeholdersBundled, fs.placeholdersUser with
  | some bs, some us =>
    ⟨{ st with
        placeholders := placeholdersFold env (bs ++ us) st.placeholders,
        settings :=
          if (alookup (placeholdersFold env (bs ++ us) st.placeholders)
              st.settings.fancy_toolbar.placeholder).isSome then st.settings
          else { st.settings with fancy_toolbar := ⟨"default.yml"⟩ } }, [], none⟩
  | _, _ => ⟨st, [], some "read_dir failed"⟩

/-- Modelling `FullState::load_layout_from_file`: `yml`, `yaml` and `json`
extensions are accepted, with the parser chosen by extension. -/
def load_layout_from_file (env : StateEnv) (ext : Option String) (content : String) :
    Except String WindowManagerLayout :=
  match ext with
  | some e =>
    if e == "yml" || e == "yaml" || e == "json" then
      if e == "json" then env.parseLayoutJson content else env.parseLayoutYaml content
    else Except.error "Invalid layout file extension"
  | none => Except.error "Invalid layout file extension"

/-- The per-entry loop body of `load_layouts`: directories are skipped, a
loadable file is keyed by its filename and inserted, a failing one skipped. -/
def layoutsStep (env : StateEnv) (m : List (String × WindowManagerLayout)) :
    FsEntry → List (String × WindowManagerLayout)
  | .dir _ _ => m
  | .file n ext c =>
    match load_layout_from_file env ext c with
    | Except.ok l => ainsert m n { l with info := { l.info with filename := n } }
    | Except.error _ => m

/-- The entry loop of `load_layouts` over a list of directory entries. -/
def layoutsFold (env : StateEnv) (entries : List FsEntry)
    (m : List (String × WindowManagerLayout)) : List (String × WindowManagerLayout) :=
  entries.foldl (layoutsStep env) m

/-- Modelling `FullState::load_layouts`, including the trailing selected
identity validation that resets `settings.window_manager.default_layout` to
`"BSP.json"` when the selected layout is not in the loaded set. -/
def FullState.load_layouts (env : StateEnv) (fs : FS) (st : FullState) : LoadOut :=
  match fs.layoutsBundled, fs.layoutsUser with
  | some bs, some us =>
    ⟨{ st with
        layouts := layoutsFold env (bs ++ us) st.layouts,
        settings :=
          if (alookup (layoutsFold env (bs ++ us) st.layouts)
              st.settings.window_manager.default_layout).isSome then st.settings
          else { st.settings with window_manager := ⟨"BSP.json"⟩ } }, [], none⟩
  | _, _ => ⟨st, [], some "read_dir failed"⟩

/-- The bundled-templates loop of `load_settings_by_app`: each template file is
read and parsed with `?`, so the first unreadable or malformed template aborts
with the entries accumulated so far; parsed entries are marked bundled. -/
def appsTemplatesLoop (env : StateEnv) : List FsEntry → List AppConfig →
    List AppConfig × Option String
  | [], acc => (acc, none)
  | e :: rest, acc =>
    match e with
    | .dir _ _ => (acc, some "read_to_string failed")
    | .file _ _ c =>
      match env.parseAppConfigs c with
      | Except.error er => (acc, some er)
      | Except.ok apps => appsTemplatesLoop env rest (acc ++ apps.map AppConfig.markBundled)

/-- The write performed by `load_settings_by_app` when the user file is
absent: the cleared override list, filtered to non-bundled entries, is
persisted — an empty array. -/
def appsDefaultWrites (fs : FS) : List FsWrite :=
  if fs.userAppsContent.isNone then [FsWrite.appsFile []] else []

/-- Modelling `FullState::load_settings_by_app`: clear the current overrides,
persist an empty user file when it is absent, extend with the bundled
templates (each parsed with `?`), then with the user file (parsed with `?`),
and cache the identifier regexes. -/
def FullState.load_settings_by_app (env : StateEnv) (fs : FS) (st : FullState) : LoadOut :=
  match fs.appsTemplates with
  | none => ⟨{ st with settings_by_app := [] }, appsDefaultWrites fs, some "read_dir failed"⟩
  | some entries =>
    match appsTemplatesLoop env entries [] with
    | (acc, some e) => ⟨{ st with settings_by_app := acc }, appsDefaultWrites fs, some e⟩
    | (acc, none) =>
      match fs.userAppsContent with
      | some c =>
        match env.parseAppConfigs c with
        | Except.error e =>
          ⟨{ st with settings_by_app := acc }, appsDefaultWrites fs, some e⟩
        | Except.ok apps =>
          ⟨{ st with settings_by_app := (acc ++ apps).map AppConfig.cacheRegex },
            appsDefaultWrites fs, none⟩
      | none =>
        ⟨{ st with settings_by_app := acc.map AppConfig.cacheRegex },
          appsDefaultWrites fs, none⟩

/-- The per-category change notifications re-emitted after a reload. -/
inductive StateEmission : Type where
  | wegItems
  | history
  | settings
  | themes
  | placeholders
  | layouts
  | settingsByApp
deriving DecidableEq, Repr

/-- Does the batch contain the weg-items file path. -/
def touchesWegItems (st : FullState) (paths : List (List String)) : Bool :=
  paths.contains (st.data_dir ++ ["seelenweg_items.yaml"])

/-- Does the batch contain the history file path. -/
def touchesHistory (st : FullState) (paths : List (List String)) : Bool :=
  paths.contains (st.data_dir ++ ["history"])

/-- Does the batch contain the settings file path. -/
def touchesSettings (st : FullState) (paths : List (List String)) : Bool :=
  paths.contains (st.data_dir ++ ["settings.json"])

/-- Does any path of the batch lie under one of the themes directories. -/
def touchesThemes (st : FullState) (paths : List (List String)) : Bool :=
  paths.any (fun p =>
    pathPre (st.data_dir ++ ["themes"]) p ||
    pathPre (st.resources_dir ++ ["static", "themes"]) p)

/-- Does any path of the batch lie under one of the placeholders directories. -/
def touchesPlaceholders (st : FullState) (paths : List (List String)) : Bool :=
  paths.any (fun p =>
    pathPre (st.data_dir ++ ["placeholders"]) p ||
    pathPre (st.resources_dir ++ ["static", "placeholders"]) p)

/-- Does any path of the batch lie under one of the layouts directories. -/
def touchesLayouts (st : FullState) (paths : List (List String)) : Bool :=
  paths.any (fun p =>
    pathPre (st.data_dir ++ ["layouts"]) p ||
    pathPre (st.resources_dir ++ ["static", "layouts"]) p)

/-- Does any path of the batch lie under the user applications file or the
bundled app-templates directory. -/
def touchesApps (st : FullState) (paths : List (List String)) : Bool :=
  paths.any (fun p =>
    pathPre (st.data_dir ++ ["applications.yml"]) p ||
    pathPre (st.resources_dir ++ ["static", "apps_templates"]) p)

/-- Accumulated result of `FullState::process_event`: the mutated working
state, the snapshots published via `store_cloned` paired with the emitted
category notification, the files written, and the first propagated error. -/
structure ProcOut where
  state : FullState
  published : List (StateEmission × FullState)
  writes : List FsWrite
  err : Option String
deriving DecidableEq, Repr

/-- One category branch of `process_event`: skipped when a previous branch
already returned an error (the `?` operator) or when the batch does not touch
the category; otherwise the load runs, and on success the mutated state is
published (`store_cloned`) and the category notification emitted. -/
def branchStep (touched : Bool) (load : FullState → LoadOut) (tag : StateEmission)
    (acc : ProcOut) : ProcOut :=
  if acc.err.isSome then acc
  else if touched then
    let r := load acc.state
    match r.err with
    | some e => ⟨r.state, acc.published, acc.writes ++ r.writes, some e⟩
    | none => ⟨r.state, acc.published ++ [(tag, r.state)], acc.writes ++ r.writes, none⟩
  else acc

/-- Modelling `FullState::process_event`: the seven category branches in
source order, each reloading, publishing a cloned snapshot and emitting its
notification when its watched paths are touched. -/
def process_event (env : StateEnv) (fs : FS) (st : FullState) (paths : List (List String)) :
    ProcOut :=
  branchStep (touchesApps st paths) (FullState.load_settings_by_app env fs)
    StateEmission.settingsByApp
    (branchStep (touchesLayouts st paths) (FullState.load_layouts env fs)
      StateEmission.layouts
      (branchStep (touchesPlaceholders st paths) (FullState.load_placeholders env fs)
        StateEmission.placeholders
        (branchStep (touchesThemes st paths) (FullState.load_themes env fs)
          StateEmission.themes
          (branchStep (touchesSettings st paths) (FullState.load_settings env fs)
            StateEmission.settings
            (branchStep (touchesHistory st paths) (FullState.load_history env fs)
              StateEmission.history
              (branchStep (touchesWegItems st paths) (FullState.load_weg_items env fs)
                StateEmission.wegItems ⟨st, [], [], none⟩))))))

/-- Modelling the debouncer callback installed by `FullState::start_listeners`:
when `FILE_LISTENER_PAUSED` is set the whole batch list is dropped, otherwise
the current snapshot is cloned and every event is processed against the
rolling clone, with per-event errors logged and skipped (`log_error`). -/
def file_watcher_callback (env : StateEnv) (fs : FS) (paused : Bool) (current : FullState)
    (events : List (List (List String))) :
    FullState × List (StateEmission × FullState) × List FsWrite :=
  if paused then (current, [], [])
  else
    events.foldl (fun acc ps =>
      let r := process_event env fs acc.1 ps
      (r.state, acc.2.1 ++ r.published, acc.2.2 ++ r.writes)) (current, [], [])

/-- The seven category-touch flags of a batch, in the branch order of
`process_event`. -/
def touchVec (st : FullState) (ps : List (List String)) : List Bool :=
  [touchesWegItems st ps, touchesHistory st ps, touchesSettings st ps,
   touchesThemes st ps, touchesPlaceholders st ps, touchesLayouts st ps,
   touchesApps st ps]

/-- Keys of an association list are pairwise distinct. -/
def akeysNodup {α β : Type} [DecidableEq α] : List (α × β) → Bool
  | [] => true
  | p :: rest => (alookup rest p.1).isNone && akeysNodup rest

/-- Number of entries of an association list carrying a given key. -/
def akeyCount {α β : Type} [DecidableEq α] : List (α × β) → α → Nat
  | [], _ => 0
  | p :: rest, a => (if p.1 = a then 1 else 0) + akeyCount rest a

/-- Agreement of two states on every field except the weg-items category. -/
def eqOutsideWegItems (a b : FullState) : Prop :=
  a.data_dir = b.data_dir ∧ a.resources_dir = b.resources_dir ∧ a.settings = b.settings ∧
  a.settings_by_app = b.settings_by_app ∧ a.themes = b.themes ∧
  a.placeholders = b.placeholders ∧ a.layouts = b.layouts ∧ a.history = b.history

/-- Agreement of two states on every field except the history category. -/
def eqOutsideHistory (a b : FullState) : Prop :=
  a.data_dir = b.data_dir ∧ a.resources_dir = b.resources_dir ∧ a.settings = b.settings ∧
  a.settings_by_app = b.settings_by_app ∧ a.themes = b.themes ∧
  a.placeholders = b.placeholders ∧ a.layouts = b.layouts ∧ a.weg_items = b.weg_items

/-- Agreement of two states on every field except the settings category. -/
def eqOutsideSettings (a b : FullState) : Prop :=
  a.data_dir = b.data_dir ∧ a.resources_dir = b.resources_dir ∧
  a.settings_by_app = b.settings_by_app ∧ a.themes = b.themes ∧
  a.placeholders = b.placeholders ∧ a.layouts = b.layouts ∧ a.weg_items = b.weg_items ∧
  a.history = b.history

/-- Agreement of two states on every field except the themes category. -/
def eqOutsideThemes (a b : FullState) : Prop :=
  a.data_dir = b.data_dir ∧ a.resources_dir = b.resources_dir ∧ a.settings = b.settings ∧
  a.settings_by_app = b.settings_by_app ∧ a.placeholders = b.placeholders ∧
  a.layouts = b.layouts ∧ a.weg_items = b.weg_items ∧ a.history = b.history

/-- Agreement of two states on every field except the per-app overrides. -/
def eqOutsideApps (a b : FullState) : Prop :=
  a.data_dir = b.data_dir ∧ a.resources_dir = b.resources_dir ∧ a.settings = b.settings ∧
  a.themes = b.themes ∧ a.placeholders = b.placeholders ∧ a.layouts = b.layouts ∧
  a.weg_items = b.weg_items ∧ a.history = b.history

/-- Agreement of two states on every field except the placeholders category
and the selected-placeholder identity inside the settings, which may only have
been reset to the `"default.yml"` fallback. -/
def eqOutsidePlaceholders (a b : FullState) : Prop :=
  a.data_dir = b.data_dir ∧ a.resources_dir = b.resources_dir ∧
  a.settings_by_app = b.settings_by_app ∧ a.themes = b.themes ∧ a.layouts = b.layouts ∧
  a.weg_items = b.weg_items ∧ a.history = b.history ∧
  a.settings.window_manager = b.settings.window_manager ∧
  a.settings.virtual_desktop_strategy = b.settings.virtual_desktop_strategy ∧
  a.settings.selected_themes = b.settings.selected_themes ∧
  (a.settings = b.settings ∨ a.settings.fancy_toolbar.placeholder = "default.yml")

/-- Agreement of two states on every field except the layouts category and the
selected-layout identity inside the settings, which may only have been reset
to the `"BSP.json"` fallback. -/
def eqOutsideLayouts (a b : FullState) : Prop :=
  a.data_dir = b.data_dir ∧ a.resources_dir = b.resources_dir ∧
  a.settings_by_app = b.settings_by_app ∧ a.themes = b.themes ∧
  a.placeholders = b.placeholders ∧ a.weg_items = b.weg_items ∧ a.history = b.history ∧
  a.settings.fancy_toolbar = b.settings.fancy_toolbar ∧
  a.settings.virtual_desktop_strategy = b.settings.virtual_desktop_strategy ∧
  a.settings.selected_themes = b.settings.selected_themes ∧
  (a.settings = b.settings ∨ a.settings.window_manager.default_layout = "BSP.json")

/-- A concrete parsing environment for witnesses and counterexamples: the
resource parsers record the raw file content in the resource body, so distinct
contents stay distinguishable, while the settings and per-app parsers reject
their input. -/
def stubEnv : StateEnv where
  vdSupported := true
  parseSettings := fun _ => Except.error "bad settings"
  sanitizeSettings := fun s => s
  parseTheme := fun c => Except.ok ⟨⟨""⟩, ⟨c, "", "", "", ""⟩⟩
  parsePlaceholder := fun c => Except.ok ⟨⟨""⟩, c⟩
  parseLayoutYaml := fun c => Except.ok ⟨⟨""⟩, c⟩
  parseLayoutJson := fun c => Except.ok ⟨⟨""⟩, c⟩
  parseWegItems := fun c => Except.ok ⟨c⟩
  sanitizeWegItems := fun w => w
  parseHistory := fun _ => Except.ok []
  parseAppConfigs := fun _ => Except.error "malformed"

/-! Lemmas about the branch pipeline and the category loads. -/

theorem branchStep_not_touched (load : FullState → LoadOut) (tag : StateEmission)
    (acc : ProcOut) : branchStep false load tag acc = acc := by
  unfold branchStep
  by_cases h : acc.err.isSome = true
  · rw [if_pos h]
  · rw [if_neg h, if_neg (by simp)]

theorem branchStep_touched_err (load : FullState → LoadOut) (tag : StateEmission)
    (st : FullState) (e : String) (h : (load st).err = some e) :
    branchStep true load tag ⟨st, [], [], none⟩ =
      ⟨(load st).state, [], (load st).writes, some e⟩ := by
  have h0 : branchStep true load tag ⟨st, [], [], none⟩ =
      (match (load st).err with
       | some e2 => (⟨(load st).state, [], (load st).writes, some e2⟩ : ProcOut)
       | none => ⟨(load st).state, [(tag, (load st).state)], (load st).writes, none⟩) := rfl
  rw [h0, h]

theorem branchStep_touched_ok (load : FullState → LoadOut) (tag : StateEmission)
    (st : FullState) (h : (load st).err = none) :
    branchStep true load tag ⟨st, [], [], none⟩ =
      ⟨(load st).state, [(tag, (load st).state)], (load st).writes, none⟩ := by
  have h0 : branchStep true load tag ⟨st, [], [], none⟩ =
      (match (load st).err with
       | some e2 => (⟨(load st).state, [], (load st).writes, some e2⟩ : ProcOut)
       | none => ⟨(load st).state, [(tag, (load st).state)], (load st).writes, none⟩) := rfl
  rw [h0, h]

theorem load_settings_frame (env : StateEnv) (fs : FS) (st : FullState) :
    ∃ s, (FullState.load_settings env fs st).state = { st with settings := s } := by
  unfold FullState.load_settings
  split
  · split
    · exact ⟨st.settings, rfl⟩
    · exact ⟨_, rfl⟩
  · exact ⟨_, rfl⟩

theorem load_weg_items_frame (env : StateEnv) (fs : FS) (st : FullState) :
    ∃ w, (FullState.load_weg_items env fs st).state = { st with weg_items := w } := by
  unfold FullState.load_weg_items
  split
  · split
    · exact ⟨st.weg_items, rfl⟩
    · exact ⟨_, rfl⟩
  · exact ⟨st.weg_items, rfl⟩

theorem load_history_frame (env : StateEnv) (fs : FS) (st : FullState) :
    ∃ h, (FullState.load_history env fs st).state = { st with history := h } := by
  unfold FullState.load_history
  split
  · split
    · exact ⟨st.history, rfl⟩
    · exact ⟨_, rfl⟩
  · exact ⟨st.history, rfl⟩

theorem load_themes_frame (env : StateEnv) (fs : FS) (st : FullState) :
    ∃ t, (FullState.load_themes env fs st).state = { st with themes := t } := by
  unfold FullState.load_themes
  split
  · exact ⟨_, rfl⟩
  · exact ⟨st.themes, rfl⟩

theorem load_placeholders_frame (env : StateEnv) (fs : FS) (st : FullState) :
    ∃ p s, (FullState.load_placeholders env fs st).state =
        { st with placeholders := p, settings := s } ∧
      (s = st.settings ∨ s = { st.settings with fancy_toolbar := ⟨"default.yml"⟩ }) := by
  unfold FullState.load_placeholders
  split
  · rename_i bs us hbs hus
    split
    · exact ⟨_, st.settings, rfl, Or.inl rfl⟩
    · exact ⟨_, _, rfl, Or.inr rfl⟩
  · exact ⟨st.placeholders, st.settings, rfl, Or.inl rfl⟩

theorem load_layouts_frame (env : StateEnv) (fs : FS) (st : FullState) :
    ∃ l s, (FullState.load_layouts env fs st).state =
        { st with layouts := l, settings := s } ∧
      (s = st.settings ∨ s = { st.settings with window_manager := ⟨"BSP.json"⟩ }) := by
  unfold FullState.load_layouts
  split
  · rename_i bs us hbs hus
    split
    · exact ⟨_, st.settings, rfl, Or.inl rfl⟩
    · exact ⟨_, _, rfl, Or.inr rfl⟩
  · exact ⟨st.layouts, st.settings, rfl, Or.inl rfl⟩

theorem load_settings_by_app_frame (env : StateEnv) (fs : FS) (st : FullState) :
    ∃ l, (FullState.load_settings_by_app env fs st).state =
      { st with settings_by_app := l } := by
  unfold FullState.load_settings_by_app
  split
  · exact ⟨[], rfl⟩
  · split
    · exact ⟨_, rfl⟩
    · split
      · split
        · exact ⟨_, rfl⟩
        · exact ⟨_, rfl⟩
      · exact ⟨_, rfl⟩

/-- C8: while the reload-paused flag is set, every batch delivered by the
watcher debounce callback is dropped entirely: no category load runs, the
state is unchanged, no snapshot is published, no category notification is
emitted and nothing is written to disk. -/
theorem claimC8 (env : StateEnv) (fs : FS) (current : FullState)
    (events : List (List (List String))) :
    file_watcher_callback env fs true current events = (current, [], []) := rfl

/-- C6: for each category backed by a single user file (settings, weg-items,
history, per-app overrides), the load persists a synthesized default file
exactly when the user file is absent, and writes nothing when it exists. -/
theorem claimC6 (env : StateEnv) (fs : FS) (st : FullState) :
    (fs.settingsContent = none →
      (FullState.load_settings env fs st).writes =
        [FsWrite.settingsFile (FullState.load_settings env fs st).state.settings]) ∧
    (∀ c, fs.settingsContent = some c → (FullState.load_settings env fs st).writes = []) ∧
    (fs.wegItemsContent = none →
      (FullState.load_weg_items env fs st).writes = [FsWrite.wegItemsFile st.weg_items]) ∧
    (∀ c, fs.wegItemsContent = some c → (FullState.load_weg_items env fs st).writes = []) ∧
    (fs.historyContent = none →
      (FullState.load_history env fs st).writes = [FsWrite.historyFile st.history]) ∧
    (∀ c, fs.historyContent = some c → (FullState.load_history env fs st).writes = []) ∧
    (fs.userAppsContent = none →
      (FullState.load_settings_by_app env fs st).writes = [FsWrite.appsFile []]) ∧
    (∀ c, fs.userAppsContent = some c →
      (FullState.load_settings_by_app env fs st).writes = []) := by
  refine ⟨?_, ?_, ?_, ?_, ?_, ?_, ?_, ?_⟩
  · intro h
    unfold FullState.load_settings
    split
    · rename_i c heq
      rw [h] at heq
      simp at heq
    · rfl
  · intro c h
    unfold FullState.load_settings
    split
    · split
      · rfl
      · rfl
    · rename_i heq
      rw [h] at heq
      simp at heq
  · intro h
    unfold FullState.load_weg_items
    split
    · rename_i c heq
      rw [h] at heq
      simp at heq
    · rfl
  · intro c h
    unfold FullState.load_weg_items
    split
    · split
      · rfl
      · rfl
    · rename_i heq
      rw [h] at heq
      simp at heq
  · intro h
    unfold FullState.load_history
    split
    · rename_i c heq
      rw [h] at heq
      simp at heq
    · rfl
  · intro c h
    unfold FullState.load_history
    split
    · split
      · rfl
      · rfl
    · rename_i heq
      rw [h] at heq
      simp at heq
  · intro h
    have hw : appsDefaultWrites fs = [FsWrite.appsFile []] := by
      simp [appsDefaultWrites, h]
    unfold FullState.load_settings_by_app
    split
    · exact hw
    · split
      · exact hw
      · split
        · split
          · exact hw
          · exact hw
        · exact hw
  · intro c h
    have hw : appsDefaultWrites fs = [] := by
      simp [appsDefaultWrites, h]
    unfold FullState.load_settings_by_app
    split
    · exact hw
    · split
      · exact hw
      · split
        · split
          · exact hw
          · exact hw
        · exact hw

/-- Witness for C6 at a concrete filesystem with the settings file absent and
the weg-items file present. -/
theorem claimC6_witness :
    (FullState.load_settings stubEnv
      ⟨none, some "w", none, none, none, none, none, none, none, none, none⟩
      ⟨["d"], ["r"], ⟨⟨"p"⟩, ⟨"l"⟩, VirtualDesktopStrategy.native, []⟩, [], [], [], [],
        ⟨""⟩, []⟩).writes =
      [FsWrite.settingsFile (FullState.load_settings stubEnv
        ⟨none, some "w", none, none, none, none, none, none, none, none, none⟩
        ⟨["d"], ["r"], ⟨⟨"p"⟩, ⟨"l"⟩, VirtualDesktopStrategy.native, []⟩, [], [], [], [],
          ⟨""⟩, []⟩).state.settings] ∧
    (FullState.load_weg_items stubEnv
      ⟨none, some "w", none, none, none, none, none, none, none, none, none⟩
      ⟨["d"], ["r"], ⟨⟨"p"⟩, ⟨"l"⟩, VirtualDesktopStrategy.native, []⟩, [], [], [], [],
        ⟨""⟩, []⟩).writes = [] := by
  refine ⟨(claimC6 stubEnv
      ⟨none, some "w", none, none, none, none, none, none, none, none, none⟩
      ⟨["d"], ["r"], ⟨⟨"p"⟩, ⟨"l"⟩, VirtualDesktopStrategy.native, []⟩, [], [], [], [],
        ⟨""⟩, []⟩).1 rfl, ?_⟩
  exact (claimC6 stubEnv
      ⟨none, some "w", none, none, none, none, none, none, none, none, none⟩
      ⟨["d"], ["r"], ⟨⟨"p"⟩, ⟨"l"⟩, VirtualDesktopStrategy.native, []⟩, [], [], [], [],
        ⟨""⟩, []⟩).2.2.2.1 "w" rfl

/-! Lemmas about the resource folds. -/

theorem themesFold_cons (env : StateEnv) (e : FsEntry) (l : List FsEntry)
    (m : List (String × Theme)) :
    themesFold env (e :: l) m = themesFold env l (themesStep env m e) := rfl

theorem themesFold_append (env : StateEnv) (l1 l2 : List FsEntry)
    (m : List (String × Theme)) :
    themesFold env (l1 ++ l2) m = themesFold env l2 (themesFold env l1 m) := by
  simp [themesFold, List.foldl_append]

theorem themesStep_error (env : StateEnv) (m : List (String × Theme)) (e : FsEntry)
    (msg : String) (h : loadThemeEntry env e = Except.error msg) :
    themesStep env m e = m := by
  unfold themesStep
  rw [h]

theorem placeholdersFold_cons (env : StateEnv) (e : FsEntry) (l : List FsEntry)
    (m : List (String × Placeholder)) :
    placeholdersFold env (e :: l) m = placeholdersFold env l (placeholdersStep env m e) := rfl

theorem placeholdersFold_append (env : StateEnv) (l1 l2 : List FsEntry)
    (m : List (String × Placeholder)) :
    placeholdersFold env (l1 ++ l2) m = placeholdersFold env l2 (placeholdersFold env l1 m) := by
  simp [placeholdersFold, List.foldl_append]

theorem placeholdersStep_error (env : StateEnv) (m : List (String × Placeholder))
    (n : String) (ext : Option String) (c msg : String)
    (h : load_placeholder_from_file env ext c = Except.error msg) :
    placeholdersStep env m (FsEntry.file n ext c) = m := by
  simp only [placeholdersStep]
  rw [h]

theorem layoutsFold_cons (env : StateEnv) (e : FsEntry) (l : List FsEntry)
    (m : List (String × WindowManagerLayout)) :
    layoutsFold env (e :: l) m = layoutsFold env l (layoutsStep env m e) := rfl

theorem layoutsFold_append (env : StateEnv) (l1 l2 : List FsEntry)
    (m : List (String × WindowManagerLayout)) :
    layoutsFold env (l1 ++ l2) m = layoutsFold env l2 (layoutsFold env l1 m) := by
  simp [layoutsFold, List.foldl_append]

theorem layoutsStep_error (env : StateEnv) (m : List (String × WindowManagerLayout))
    (n : String) (ext : Option String) (c msg : String)
    (h : load_layout_from_file env ext c = Except.error msg) :
    layoutsStep env m (FsEntry.file n ext c) = m := by
  simp only [layoutsStep]
  rw [h]

/-- C4 (amended): the themes, placeholders and layouts loads are tolerant —
they never return an error when their two directories are readable, and an
entry whose load fails is skipped, leaving the fold exactly as if the entry
were absent; the per-app overrides load is not covered by this tolerance. -/
theorem claimC4_amended (env : StateEnv) (fs : FS) (st : FullState) :
    (∀ bs us, fs.themesBundled = some bs → fs.themesUser = some us →
      (FullState.load_themes env fs st).err = none) ∧
    (∀ bs us, fs.placeholdersBundled = some bs → fs.placeholdersUser = some us →
      (FullState.load_placeholders env fs st).err = none) ∧
    (∀ bs us, fs.layoutsBundled = some bs → fs.layoutsUser = some us →
      (FullState.load_layouts env fs st).err = none) ∧
    (∀ (l1 l2 : List FsEntry) (e : FsEntry) (msg : String) (m : List (String × Theme)),
      loadThemeEntry env e = Except.error msg →
      themesFold env (l1 ++ e :: l2) m = themesFold env (l1 ++ l2) m) ∧
    (∀ (l1 l2 : List FsEntry) (n : String) (ext : Option String) (c msg : String)
      (m : List (String × Placeholder)),
      load_placeholder_from_file env ext c = Except.error msg →
      placeholdersFold env (l1 ++ FsEntry.file n ext c :: l2) m =
        placeholdersFold env (l1 ++ l2) m) ∧
    (∀ (l1 l2 : List FsEntry) (n : String) (ext : Option String) (c msg : String)
      (m : List (String × WindowManagerLayout)),
      load_layout_from_file env ext c = Except.error msg →
      layoutsFold env (l1 ++ FsEntry.file n ext c :: l2) m =
        layoutsFold env (l1 ++ l2) m) := by
  refine ⟨?_, ?_, ?_, ?_, ?_, ?_⟩
  · intro bs us hb hu
    unfold FullState.load_themes
    rw [hb, hu]
  · intro bs us hb hu
    unfold FullState.load_placeholders
    rw [hb, hu]
  · intro bs us hb hu
    unfold FullState.load_layouts
    rw [hb, hu]
  · intro l1 l2 e msg m h
    rw [themesFold_append, themesFold_append, themesFold_cons,
      themesStep_error env _ e msg h]
  · intro l1 l2 n ext c msg m h
    rw [placeholdersFold_append, placeholdersFold_append, placeholdersFold_cons,
      placeholdersStep_error env _ n ext c msg h]
  · intro l1 l2 n ext c msg m h
    rw [layoutsFold_append, layoutsFold_append, layoutsFold_cons,
      layoutsStep_error env _ n ext c msg h]

/-- Counterexample to C4 as stated: for the per-app overrides category one
malformed template file makes `load_settings_by_app` return an error, so that
category's load is not tolerant of a single bad file. -/
theorem claimC4_counterexample :
    (FullState.load_settings_by_app stubEnv
      ⟨none, none, none, none, none, none, none, none, none, none,
        some [FsEntry.file "bad.yml" (some "yml") "not: [valid"]⟩
      ⟨["d"], ["r"], ⟨⟨"p"⟩, ⟨"l"⟩, VirtualDesktopStrategy.native, []⟩, [], [], [], [],
        ⟨""⟩, []⟩).err = some "malformed" := by decide

/-- Witness for C4 (amended): a themes load over a readable directory pair
containing one wrong-extension file succeeds, and the bad file is skipped. -/
theorem claimC4_witness :
    (FullState.load_themes stubEnv
      ⟨none, none, none, none, some [FsEntry.file "bad.txt" (some "txt") "x"], some [],
        none, none, none, none, none⟩
      ⟨["d"], ["r"], ⟨⟨"p"⟩, ⟨"l"⟩, VirtualDesktopStrategy.native, []⟩, [], [], [], [],
        ⟨""⟩, []⟩).err = none ∧
    themesFold stubEnv ([] ++ FsEntry.file "bad.txt" (some "txt") "x" :: []) [] =
      themesFold stubEnv ([] ++ []) [] := by
  constructor
  · exact (claimC4_amended stubEnv
      ⟨none, none, none, none, some [FsEntry.file "bad.txt" (some "txt") "x"], some [],
        none, none, none, none, none⟩
      ⟨["d"], ["r"], ⟨⟨"p"⟩, ⟨"l"⟩, VirtualDesktopStrategy.native, []⟩, [], [], [], [],
        ⟨""⟩, []⟩).1 [FsEntry.file "bad.txt" (some "txt") "x"] [] rfl rfl
  · exact (claimC4_amended stubEnv
      ⟨none, none, none, none, some [FsEntry.file "bad.txt" (some "txt") "x"], some [],
        none, none, none, none, none⟩
      ⟨["d"], ["r"], ⟨⟨"p"⟩, ⟨"l"⟩, VirtualDesktopStrategy.native, []⟩, [], [], [], [],
        ⟨""⟩, []⟩).2.2.2.1 [] [] (FsEntry.file "bad.txt" (some "txt") "x")
      "Invalid theme file extension" [] rfl

/-! Key-uniqueness and lookup lemmas for the identity-keyed mappings. -/

theorem alookup_isSome_ainsert {α β : Type} [DecidableEq α] (m : List (α × β)) (k a : α)
    (v : β) (h : (alookup m a).isSome = true) :
    (alookup (ainsert m k v) a).isSome = true := by
  by_cases hk : k = a
  · subst hk
    rw [alookup_ainsert_self]
    rfl
  · rw [alookup_ainsert_ne m k a v hk]
    exact h

theorem akeysNodup_ainsert {α β : Type} [DecidableEq α] (m : List (α × β)) (k : α) (v : β)
    (h : akeysNodup m = true) : akeysNodup (ainsert m k v) = true := by
  induction m with
  | nil => simp [ainsert, akeysNodup, alookup]
  | cons p rest ih =>
    simp only [akeysNodup, Bool.and_eq_true] at h
    show akeysNodup (if p.1 = k then (p.1, v) :: rest else p :: ainsert rest k v) = true
    by_cases hp : p.1 = k
    · rw [if_pos hp]
      show ((alookup rest p.1).isNone && akeysNodup rest) = true
      rw [Bool.and_eq_true]
      exact ⟨h.1, h.2⟩
    · rw [if_neg hp]
      show ((alookup (ainsert rest k v) p.1).isNone && akeysNodup (ainsert rest k v)) = true
      rw [Bool.and_eq_true]
      refine ⟨?_, ih h.2⟩
      rw [alookup_ainsert_ne rest k p.1 v (fun hh => hp hh.symm)]
      exact h.1

theorem akeyCount_eq_zero_of_none {α β : Type} [DecidableEq α] (m : List (α × β)) (k : α)
    (h : alookup m k = none) : akeyCount m k = 0 := by
  induction m with
  | nil => rfl
  | cons p rest ih =>
    by_cases hp : p.1 = k
    · simp [alookup, hp] at h
    · simp [alookup, hp] at h
      simp [akeyCount, hp, ih h]

theorem akeyCount_eq_one {α β : Type} [DecidableEq α] (m : List (α × β)) (k : α) (v : β)
    (hnd : akeysNodup m = true) (h : alookup m k = some v) : akeyCount m k = 1 := by
  induction m with
  | nil => simp [alookup] at h
  | cons p rest ih =>
    simp only [akeysNodup, Bool.and_eq_true] at hnd
    by_cases hp : p.1 = k
    · have hnone : alookup rest k = none := by
        rw [← hp]
        exact Option.isNone_iff_eq_none.mp (by simpa using hnd.1)
      simp [akeyCount, hp, akeyCount_eq_zero_of_none rest k hnone]
    · simp [alookup, hp] at h
      simp [akeyCount, hp, ih hnd.2 h]

theorem akeysNodup_themesFold (env : StateEnv) (l : List FsEntry)
    (m : List (String × Theme)) (h : akeysNodup m = true) :
    akeysNodup (themesFold env l m) = true := by
  induction l generalizing m with
  | nil => exact h
  | cons e l ih =>
    rw [themesFold_cons]
    refine ih _ ?_
    unfold themesStep
    cases loadThemeEntry env e with
    | ok t => exact akeysNodup_ainsert m e.name _ h
    | error msg => exact h

theorem themesFold_alookup_of_ne (env : StateEnv) (l : List FsEntry)
    (m : List (String × Theme)) (n : String) (h : ∀ e ∈ l, FsEntry.name e ≠ n) :
    alookup (themesFold env l m) n = alookup m n := by
  induction l generalizing m with
  | nil => rfl
  | cons e l ih =>
    rw [themesFold_cons, ih _ (fun e2 he2 => h e2 (List.mem_cons_of_mem _ he2))]
    unfold themesStep
    cases loadThemeEntry env e with
    | ok t => exact alookup_ainsert_ne m e.name n _ (h e (List.mem_cons_self _ _))
    | error msg => rfl

theorem themesFold_isSome (env : StateEnv) (l : List FsEntry)
    (m : List (String × Theme)) (k : String) (h : (alookup m k).isSome = true) :
    (alookup (themesFold env l m) k).isSome = true := by
  induction l generalizing m with
  | nil => exact h
  | cons e l ih =>
    rw [themesFold_cons]
    refine ih _ ?_
    unfold themesStep
    cases loadThemeEntry env e with
    | ok t => exact alookup_isSome_ainsert m e.name k _ h
    | error msg => exact h

theorem placeholdersFold_isSome (env : StateEnv) (l : List FsEntry)
    (m : List (String × Placeholder)) (k : String) (h : (alookup m k).isSome = true) :
    (alookup (placeholdersFold env l m) k).isSome = true := by
  induction l generalizing m with
  | nil => exact h
  | cons e l ih =>
    rw [placeholdersFold_cons]
    refine ih _ ?_
    cases e with
    | dir n files => exact h
    | file n ext c =>
      simp only [placeholdersStep]
      cases load_placeholder_from_file env ext c with
      | ok p => exact alookup_isSome_ainsert m n k _ h
      | error msg => exact h

theorem layoutsFold_isSome (env : StateEnv) (l : List FsEntry)
    (m : List (String × WindowManagerLayout)) (k : String)
    (h : (alookup m k).isSome = true) :
    (alookup (layoutsFold env l m) k).isSome = true := by
  induction l generalizing m with
  | nil => exact h
  | cons e l ih =>
    rw [layoutsFold_cons]
    refine ih _ ?_
    cases e with
    | dir n files => exact h
    | file n ext c =>
      simp only [layoutsStep]
      cases load_layout_from_file env ext c with
      | ok p => exact alookup_isSome_ainsert m n k _ h
      | error msg => exact h

theorem akeysNodup_placeholdersFold (env : StateEnv) (l : List FsEntry)
    (m : List (String × Placeholder)) (h : akeysNodup m = true) :
    akeysNodup (placeholdersFold env l m) = true := by
  induction l generalizing m with
  | nil => exact h
  | cons e l ih =>
    rw [placeholdersFold_cons]
    refine ih _ ?_
    cases e with
    | dir n files => exact h
    | file n ext c =>
      simp only [placeholdersStep]
      cases load_placeholder_from_file env ext c with
      | ok p => exact akeysNodup_ainsert m n _ h
      | error msg => exact h

theorem placeholdersFold_alookup_of_ne (env : StateEnv) (l : List FsEntry)
    (m : List (String × Placeholder)) (n : String) (h : ∀ e ∈ l, FsEntry.name e ≠ n) :
    alookup (placeholdersFold env l m) n = alookup m n := by
  induction l generalizing m with
  | nil => rfl
  | cons e l ih =>
    rw [placeholdersFold_cons, ih _ (fun e2 he2 => h e2 (List.mem_cons_of_mem _ he2))]
    cases e with
    | dir n2 files => rfl
    | file n2 ext c =>
      simp only [placeholdersStep]
      cases load_placeholder_from_file env ext c with
      | ok p => exact alookup_ainsert_ne m n2 n _ (h _ (List.mem_cons_self _ _))
      | error msg => rfl

theorem akeysNodup_layoutsFold (env : StateEnv) (l : List FsEntry)
    (m : List (String × WindowManagerLayout)) (h : akeysNodup m = true) :
    akeysNodup (layoutsFold env l m) = true := by
  induction l generalizing m with
  | nil => exact h
  | cons e l ih =>
    rw [layoutsFold_cons]
    refine ih _ ?_
    cases e with
    | dir n files => exact h
    | file n ext c =>
      simp only [layoutsStep]
      cases load_layout_from_file env ext c with
      | ok p => exact akeysNodup_ainsert m n _ h
      | error msg => exact h

theorem layoutsFold_alookup_of_ne (env : StateEnv) (l : List FsEntry)
    (m : List (String × WindowManagerLayout)) (n : String)
    (h : ∀ e ∈ l, FsEntry.name e ≠ n) :
    alookup (layoutsFold env l m) n = alookup m n := by
  induction l generalizing m with
  | nil => rfl
  | cons e l ih =>
    rw [layoutsFold_cons, ih _ (fun e2 he2 => h e2 (List.mem_cons_of_mem _ he2))]
    cases e with
    | dir n2 files => rfl
    | file n2 ext c =>
      simp only [layoutsStep]
      cases load_layout_from_file env ext c with
      | ok p => exact alookup_ainsert_ne m n2 n _ (h _ (List.mem_cons_self _ _))
      | error msg => rfl

/-- C5: for each identity-keyed category load (themes, placeholders, layouts),
when an identity is present in both roots and the user entry loads, the
mapping produced by the load holds exactly one entry for that identity, and
its value comes from the user-root file (the later insertion into the
identity-keyed mapping wins); key-uniqueness of the mapping is preserved. -/
theorem claimC5 (env : StateEnv) (fs : FS) (st : FullState) :
    (∀ (bs u1 u2 : List FsEntry) (eu : FsEntry) (n : String) (tu : Theme),
      fs.themesBundled = some bs →
      fs.themesUser = some (u1 ++ eu :: u2) →
      (∃ eb ∈ bs, FsEntry.name eb = n) →
      FsEntry.name eu = n →
      loadThemeEntry env eu = Except.ok tu →
      (∀ e2 ∈ u2, FsEntry.name e2 ≠ n) →
      akeysNodup st.themes = true →
      (FullState.load_themes env fs st).err = none ∧
      alookup (FullState.load_themes env fs st).state.themes n =
        some { tu with info := { tu.info with filename := n } } ∧
      akeyCount (FullState.load_themes env fs st).state.themes n = 1 ∧
      akeysNodup (FullState.load_themes env fs st).state.themes = true) ∧
    (∀ (bs u1 u2 : List FsEntry) (n : String) (ext : Option String) (c : String)
      (pu : Placeholder),
      fs.placeholdersBundled = some bs →
      fs.placeholdersUser = some (u1 ++ FsEntry.file n ext c :: u2) →
      (∃ eb ∈ bs, FsEntry.name eb = n) →
      load_placeholder_from_file env ext c = Except.ok pu →
      (∀ e2 ∈ u2, FsEntry.name e2 ≠ n) →
      akeysNodup st.placeholders = true →
      (FullState.load_placeholders env fs st).err = none ∧
      alookup (FullState.load_placeholders env fs st).state.placeholders n =
        some { pu with info := { pu.info with filename := n } } ∧
      akeyCount (FullState.load_placeholders env fs st).state.placeholders n = 1 ∧
      akeysNodup (FullState.load_placeholders env fs st).state.placeholders = true) ∧
    (∀ (bs u1 u2 : List FsEntry) (n : String) (ext : Option String) (c : String)
      (lu : WindowManagerLayout),
      fs.layoutsBundled = some bs →
      fs.layoutsUser = some (u1 ++ FsEntry.file n ext c :: u2) →
      (∃ eb ∈ bs, FsEntry.name eb = n) →
      load_layout_from_file env ext c = Except.ok lu →
      (∀ e2 ∈ u2, FsEntry.name e2 ≠ n) →
      akeysNodup st.layouts = true →
      (FullState.load_layouts env fs st).err = none ∧
      alookup (FullState.load_layouts env fs st).state.layouts n =
        some { lu with info := { lu.info with filename := n } } ∧
      akeyCount (FullState.load_layouts env fs st).state.layouts n = 1 ∧
      akeysNodup (FullState.load_layouts env fs st).state.layouts = true) := by
  refine ⟨?_, ?_, ?_⟩
  · intro bs u1 u2 eu n tu hb hu _hbn hn hok hlast hnd
    have hstate : (FullState.load_themes env fs st).state.themes =
        themesFold env (bs ++ (u1 ++ eu :: u2)) st.themes := by
      unfold FullState.load_themes
      rw [hb, hu]
    have herr : (FullState.load_themes env fs st).err = none := by
      unfold FullState.load_themes
      rw [hb, hu]
    have hsplit : bs ++ (u1 ++ eu :: u2) = (bs ++ u1) ++ eu :: u2 := by
      simp
    have hlook : alookup (themesFold env (bs ++ (u1 ++ eu :: u2)) st.themes) n =
        some { tu with info := { tu.info with filename := n } } := by
      rw [hsplit, themesFold_append, themesFold_cons,
        themesFold_alookup_of_ne env u2 _ n hlast]
      have hstep : themesStep env (themesFold env (bs ++ u1) st.themes) eu =
          ainsert (themesFold env (bs ++ u1) st.themes) n
            { tu with info := { tu.info with filename := n } } := by
        unfold themesStep
        rw [hok, hn]
      rw [hstep, alookup_ainsert_self]
    have hndfold : akeysNodup (themesFold env (bs ++ (u1 ++ eu :: u2)) st.themes) = true :=
      akeysNodup_themesFold env _ st.themes hnd
    refine ⟨herr, ?_, ?_, ?_⟩
    · rw [hstate, hlook]
    · rw [hstate]
      exact akeyCount_eq_one _ n _ hndfold hlook
    · rw [hstate]
      exact hndfold
  · intro bs u1 u2 n ext c pu hb hu _hbn hok hlast hnd
    have hstate : (FullState.load_placeholders env fs st).state.placeholders =
        placeholdersFold env (bs ++ (u1 ++ FsEntry.file n ext c :: u2))
          st.placeholders := by
      unfold FullState.load_placeholders
      rw [hb, hu]
    have herr : (FullState.load_placeholders env fs st).err = none := by
      unfold FullState.load_placeholders
      rw [hb, hu]
    have hsplit : bs ++ (u1 ++ FsEntry.file n ext c :: u2) =
        (bs ++ u1) ++ FsEntry.file n ext c :: u2 := by
      simp
    have hlook : alookup (placeholdersFold env
        (bs ++ (u1 ++ FsEntry.file n ext c :: u2)) st.placeholders) n =
        some { pu with info := { pu.info with filename := n } } := by
      rw [hsplit, placeholdersFold_append, placeholdersFold_cons,
        placeholdersFold_alookup_of_ne env u2 _ n hlast]
      have hstep : placeholdersStep env (placeholdersFold env (bs ++ u1) st.placeholders)
          (FsEntry.file n ext c) =
          ainsert (placeholdersFold env (bs ++ u1) st.placeholders) n
            { pu with info := { pu.info with filename := n } } := by
        simp only [placeholdersStep]
        rw [hok]
      rw [hstep, alookup_ainsert_self]
    have hndfold : akeysNodup (placeholdersFold env
        (bs ++ (u1 ++ FsEntry.file n ext c :: u2)) st.placeholders) = true :=
      akeysNodup_placeholdersFold env _ st.placeholders hnd
    refine ⟨herr, ?_, ?_, ?_⟩
    · rw [hstate, hlook]
    · rw [hstate]
      exact akeyCount_eq_one _ n _ hndfold hlook
    · rw [hstate]
      exact hndfold
  · intro bs u1 u2 n ext c lu hb hu _hbn hok hlast hnd
    have hstate : (FullState.load_layouts env fs st).state.layouts =
        layoutsFold env (bs ++ (u1 ++ FsEntry.file n ext c :: u2)) st.layouts := by
      unfold FullState.load_layouts
      rw [hb, hu]
    have herr : (FullState.load_layouts env fs st).err = none := by
      unfold FullState.load_layouts
      rw [hb, hu]
    have hsplit : bs ++ (u1 ++ FsEntry.file n ext c :: u2) =
        (bs ++ u1) ++ FsEntry.file n ext c :: u2 := by
      simp
    have hlook : alookup (layoutsFold env
        (bs ++ (u1 ++ FsEntry.file n ext c :: u2)) st.layouts) n =
        some { lu with info := { lu.info with filename := n } } := by
      rw [hsplit, layoutsFold_append, layoutsFold_cons,
        layoutsFold_alookup_of_ne env u2 _ n hlast]
      have hstep : layoutsStep env (layoutsFold env (bs ++ u1) st.layouts)
          (FsEntry.file n ext c) =
          ainsert (layoutsFold env (bs ++ u1) st.layouts) n
            { lu with info := { lu.info with filename := n } } := by
        simp only [layoutsStep]
        rw [hok]
      rw [hstep, alookup_ainsert_self]
    have hndfold : akeysNodup (layoutsFold env
        (bs ++ (u1 ++ FsEntry.file n ext c :: u2)) st.layouts) = true :=
      akeysNodup_layoutsFold env _ st.layouts hnd
    refine ⟨herr, ?_, ?_, ?_⟩
    · rw [hstate, hlook]
    · rw [hstate]
      exact akeyCount_eq_one _ n _ hndfold hlook
    · rw [hstate]
      exact hndfold

/-- Witness for C5: for each of the three identity-keyed categories, the same
filename in both roots leaves one entry whose body comes from the user file's
content. -/
theorem claimC5_witness :
    (alookup (FullState.load_themes stubEnv
      ⟨none, none, none, none,
        some [FsEntry.file "a.yml" (some "yml") "bundled"],
        some [FsEntry.file "a.yml" (some "yml") "user"],
        none, none, none, none, none⟩
      ⟨["d"], ["r"], ⟨⟨"p"⟩, ⟨"l"⟩, VirtualDesktopStrategy.native, []⟩, [], [], [], [],
        ⟨""⟩, []⟩).state.themes "a.yml" =
      some ⟨⟨"a.yml"⟩, ⟨"user", "", "", "", ""⟩⟩ ∧
    akeyCount (FullState.load_themes stubEnv
      ⟨none, none, none, none,
        some [FsEntry.file "a.yml" (some "yml") "bundled"],
        some [FsEntry.file "a.yml" (some "yml") "user"],
        none, none, none, none, none⟩
      ⟨["d"], ["r"], ⟨⟨"p"⟩, ⟨"l"⟩, VirtualDesktopStrategy.native, []⟩, [], [], [], [],
        ⟨""⟩, []⟩).state.themes "a.yml" = 1) ∧
    (alookup (FullState.load_placeholders stubEnv
      ⟨none, none, none, none, none, none,
        some [FsEntry.file "a.yml" (some "yml") "bundled"],
        some [FsEntry.file "a.yml" (some "yml") "user"],
        none, none, none⟩
      ⟨["d"], ["r"], ⟨⟨"p"⟩, ⟨"l"⟩, VirtualDesktopStrategy.native, []⟩, [], [], [], [],
        ⟨""⟩, []⟩).state.placeholders "a.yml" = some ⟨⟨"a.yml"⟩, "user"⟩ ∧
    akeyCount (FullState.load_placeholders stubEnv
      ⟨none, none, none, none, none, none,
        some [FsEntry.file "a.yml" (some "yml") "bundled"],
        some [FsEntry.file "a.yml" (some "yml") "user"],
        none, none, none⟩
      ⟨["d"], ["r"], ⟨⟨"p"⟩, ⟨"l"⟩, VirtualDesktopStrategy.native, []⟩, [], [], [], [],
        ⟨""⟩, []⟩).state.placeholders "a.yml" = 1) ∧
    (alookup (FullState.load_layouts stubEnv
      ⟨none, none, none, none, none, none, none, none,
        some [FsEntry.file "a.json" (some "json") "bundled"],
        some [FsEntry.file "a.json" (some "json") "user"],
        none⟩
      ⟨["d"], ["r"], ⟨⟨"p"⟩, ⟨"l"⟩, VirtualDesktopStrategy.native, []⟩, [], [], [], [],
        ⟨""⟩, []⟩).state.layouts "a.json" = some ⟨⟨"a.json"⟩, "user"⟩ ∧
    akeyCount (FullState.load_layouts stubEnv
      ⟨none, none, none, none, none, none, none, none,
        some [FsEntry.file "a.json" (some "json") "bundled"],
        some [FsEntry.file "a.json" (some "json") "user"],
        none⟩
      ⟨["d"], ["r"], ⟨⟨"p"⟩, ⟨"l"⟩, VirtualDesktopStrategy.native, []⟩, [], [], [], [],
        ⟨""⟩, []⟩).state.layouts "a.json" = 1) := by
  refine ⟨?_, ?_, ?_⟩
  · have h := (claimC5 stubEnv
      ⟨none, none, none, none,
        some [FsEntry.file "a.yml" (some "yml") "bundled"],
        some [FsEntry.file "a.yml" (some "yml") "user"],
        none, none, none, none, none⟩
      ⟨["d"], ["r"], ⟨⟨"p"⟩, ⟨"l"⟩, VirtualDesktopStrategy.native, []⟩, [], [], [], [],
        ⟨""⟩, []⟩).1
      [FsEntry.file "a.yml" (some "yml") "bundled"] [] []
      (FsEntry.file "a.yml" (some "yml") "user") "a.yml" ⟨⟨""⟩, ⟨"user", "", "", "", ""⟩⟩
      rfl rfl ⟨FsEntry.file "a.yml" (some "yml") "bundled", by decide, rfl⟩ rfl rfl
      (by intro e2 he2; simp at he2) (by decide)
    exact ⟨h.2.1, h.2.2.1⟩
  · have h := (claimC5 stubEnv
      ⟨none, none, none, none, none, none,
        some [FsEntry.file "a.yml" (some "yml") "bundled"],
        some [FsEntry.file "a.yml" (some "yml") "user"],
        none, none, none⟩
      ⟨["d"], ["r"], ⟨⟨"p"⟩, ⟨"l"⟩, VirtualDesktopStrategy.native, []⟩, [], [], [], [],
        ⟨""⟩, []⟩).2.1
      [FsEntry.file "a.yml" (some "yml") "bundled"] [] []
      "a.yml" (some "yml") "user" ⟨⟨""⟩, "user"⟩
      rfl rfl ⟨FsEntry.file "a.yml" (some "yml") "bundled", by decide, rfl⟩ rfl
      (by intro e2 he2; simp at he2) (by decide)
    exact ⟨h.2.1, h.2.2.1⟩
  · have h := (claimC5 stubEnv
      ⟨none, none, none, none, none, none, none, none,
        some [FsEntry.file "a.json" (some "json") "bundled"],
        some [FsEntry.file "a.json" (some "json") "user"],
        none⟩
      ⟨["d"], ["r"], ⟨⟨"p"⟩, ⟨"l"⟩, VirtualDesktopStrategy.native, []⟩, [], [], [], [],
        ⟨""⟩, []⟩).2.2
      [FsEntry.file "a.json" (some "json") "bundled"] [] []
      "a.json" (some "json") "user" ⟨⟨""⟩, "user"⟩
      rfl rfl ⟨FsEntry.file "a.json" (some "json") "bundled", by decide, rfl⟩ rfl
      (by intro e2 he2; simp at he2) (by decide)
    exact ⟨h.2.1, h.2.2.1⟩

/-- C9: reloading themes, placeholders or layouts only inserts or overwrites
entries of the identity-keyed mapping, never removes one — every identity
present before the reload is present afterwards; by contrast, the per-app
overrides are cleared before their reload, so a previously present override
can disappear. -/
theorem claimC9 (env : StateEnv) (fs : FS) (st : FullState) :
    (∀ k, (alookup st.themes k).isSome = true →
      (alookup (FullState.load_themes env fs st).state.themes k).isSome = true) ∧
    (∀ k, (alookup st.placeholders k).isSome = true →
      (alookup (FullState.load_placeholders env fs st).state.placeholders k).isSome = true) ∧
    (∀ k, (alookup st.layouts k).isSome = true →
      (alookup (FullState.load_layouts env fs st).state.layouts k).isSome = true) ∧
    ((FullState.load_settings_by_app stubEnv
      ⟨none, none, none, none, none, none, none, none, none, none, some []⟩
      ⟨["d"], ["r"], ⟨⟨"p"⟩, ⟨"l"⟩, VirtualDesktopStrategy.native, []⟩,
        [⟨⟨"a", false⟩, false⟩], [], [], [], ⟨""⟩, []⟩).state.settings_by_app = [] ∧
      ([⟨⟨"a", false⟩, false⟩] : List AppConfig) ≠ []) := by
  refine ⟨?_, ?_, ?_, by decide⟩
  · intro k hk
    unfold FullState.load_themes
    split
    · exact themesFold_isSome env _ st.themes k hk
    · exact hk
  · intro k hk
    unfold FullState.load_placeholders
    split
    · exact placeholdersFold_isSome env _ st.placeholders k hk
    · exact hk
  · intro k hk
    unfold FullState.load_layouts
    split
    · exact layoutsFold_isSome env _ st.layouts k hk
    · exact hk

/-- Witness for C9: a theme identity present before a reload that overwrites
it is still present afterwards. -/
theorem claimC9_witness :
    (alookup (FullState.load_themes stubEnv
      ⟨none, none, none, none, some [], some [FsEntry.file "a.yml" (some "yml") "new"],
        none, none, none, none, none⟩
      ⟨["d"], ["r"], ⟨⟨"p"⟩, ⟨"l"⟩, VirtualDesktopStrategy.native, []⟩, [],
        [("a.yml", ⟨⟨"a.yml"⟩, ⟨"old", "", "", "", ""⟩⟩)], [], [], ⟨""⟩,
        []⟩).state.themes "a.yml").isSome = true := by
  exact (claimC9 stubEnv
      ⟨none, none, none, none, some [], some [FsEntry.file "a.yml" (some "yml") "new"],
        none, none, none, none, none⟩
      ⟨["d"], ["r"], ⟨⟨"p"⟩, ⟨"l"⟩, VirtualDesktopStrategy.native, []⟩, [],
        [("a.yml", ⟨⟨"a.yml"⟩, ⟨"old", "", "", "", ""⟩⟩)], [], [], ⟨""⟩, []⟩).1
    "a.yml" (by decide)

/-- Counterexample to C3 as stated: a file-change batch touching only the
placeholders directory publishes a snapshot whose `settings` field differs
from the prior snapshot — the stale selected placeholder identity is reset to
the `"default.yml"` fallback during the placeholders reload. -/
theorem claimC3_counterexample :
    touchVec
      ⟨["data"], ["res"], ⟨⟨"custom.yml"⟩, ⟨"BSP.json"⟩, VirtualDesktopStrategy.native, []⟩,
        [], [], [], [], ⟨""⟩, []⟩
      [["data", "placeholders", "x.yml"]] =
      [false, false, false, false, true, false, false] ∧
    (process_event stubEnv
      ⟨none, none, none, none, none, none, some [], some [], none, none, none⟩
      ⟨["data"], ["res"], ⟨⟨"custom.yml"⟩, ⟨"BSP.json"⟩, VirtualDesktopStrategy.native, []⟩,
        [], [], [], [], ⟨""⟩, []⟩
      [["data", "placeholders", "x.yml"]]).published =
      [(StateEmission.placeholders,
        ⟨["data"], ["res"], ⟨⟨"default.yml"⟩, ⟨"BSP.json"⟩, VirtualDesktopStrategy.native, []⟩,
          [], [], [], [], ⟨""⟩, []⟩)] ∧
    (⟨⟨"default.yml"⟩, ⟨"BSP.json"⟩, VirtualDesktopStrategy.native, []⟩ : Settings) ≠
      ⟨⟨"custom.yml"⟩, ⟨"BSP.json"⟩, VirtualDesktopStrategy.native, []⟩ := by
  decide

/-- C3 (amended): for a file-change batch touching exactly one category, each
published snapshot carries that category's notification and differs from the
prior snapshot only in that category's fields — except that a batch touching
only the placeholders (resp. layouts) directories may additionally reset the
selected placeholder (resp. default layout) identity inside the settings to
its hardcoded fallback when the previously selected identity is absent from
the reloaded mapping. In particular a themes-only batch never changes the
settings field. -/
theorem claimC3_amended (env : StateEnv) (fs : FS) (st : FullState)
    (ps : List (List String)) :
    (touchVec st ps = [true, false, false, false, false, false, false] →
      ∀ q ∈ (process_event env fs st ps).published,
        q.1 = StateEmission.wegItems ∧ eqOutsideWegItems q.2 st) ∧
    (touchVec st ps = [false, true, false, false, false, false, false] →
      ∀ q ∈ (process_event env fs st ps).published,
        q.1 = StateEmission.history ∧ eqOutsideHistory q.2 st) ∧
    (touchVec st ps = [false, false, true, false, false, false, false] →
      ∀ q ∈ (process_event env fs st ps).published,
        q.1 = StateEmission.settings ∧ eqOutsideSettings q.2 st) ∧
    (touchVec st ps = [false, false, false, true, false, false, false] →
      ∀ q ∈ (process_event env fs st ps).published,
        q.1 = StateEmission.themes ∧ eqOutsideThemes q.2 st) ∧
    (touchVec st ps = [false, false, false, false, true, false, false] →
      ∀ q ∈ (process_event env fs st ps).published,
        q.1 = StateEmission.placeholders ∧ eqOutsidePlaceholders q.2 st) ∧
    (touchVec st ps = [false, false, false, false, false, true, false] →
      ∀ q ∈ (process_event env fs st ps).published,
        q.1 = StateEmission.layouts ∧ eqOutsideLayouts q.2 st) ∧
    (touchVec st ps = [false, false, false, false, false, false, true] →
      ∀ q ∈ (process_event env fs st ps).published,
        q.1 = StateEmission.settingsByApp ∧ eqOutsideApps q.2 st) := by
  refine ⟨?_, ?_, ?_, ?_, ?_, ?_, ?_⟩
  · intro h q hq
    simp only [touchVec, List.cons.injEq, and_true] at h
    obtain ⟨h1, h2, h3, h4, h5, h6, h7⟩ := h
    have heq : process_event env fs st ps =
        branchStep true (FullState.load_weg_items env fs) StateEmission.wegItems
          ⟨st, [], [], none⟩ := by
      unfold process_event
      rw [h1, h2, h3, h4, h5, h6, h7]
      simp only [branchStep_not_touched]
    rw [heq] at hq
    rcases load_weg_items_frame env fs st with ⟨w, hw⟩
    cases herr : (FullState.load_weg_items env fs st).err with
    | some e =>
      rw [branchStep_touched_err _ _ _ e herr] at hq
      simp at hq
    | none =>
      rw [branchStep_touched_ok _ _ _ herr] at hq
      simp only [List.mem_singleton] at hq
      subst hq
      refine ⟨rfl, ?_⟩
      show eqOutsideWegItems (FullState.load_weg_items env fs st).state st
      rw [hw]
      exact ⟨rfl, rfl, rfl, rfl, rfl, rfl, rfl, rfl⟩
  · intro h q hq
    simp only [touchVec, List.cons.injEq, and_true] at h
    obtain ⟨h1, h2, h3, h4, h5, h6, h7⟩ := h
    have heq : process_event env fs st ps =
        branchStep true (FullState.load_history env fs) StateEmission.history
          ⟨st, [], [], none⟩ := by
      unfold process_event
      rw [h1, h2, h3, h4, h5, h6, h7]
      simp only [branchStep_not_touched]
    rw [heq] at hq
    rcases load_history_frame env fs st with ⟨w, hw⟩
    cases herr : (FullState.load_history env fs st).err with
    | some e =>
      rw [branchStep_touched_err _ _ _ e herr] at hq
      simp at hq
    | none =>
      rw [branchStep_touched_ok _ _ _ herr] at hq
      simp only [List.mem_singleton] at hq
      subst hq
      refine ⟨rfl, ?_⟩
      show eqOutsideHistory (FullState.load_history env fs st).state st
      rw [hw]
      exact ⟨rfl, rfl, rfl, rfl, rfl, rfl, rfl, rfl⟩
  · intro h q hq
    simp only [touchVec, List.cons.injEq, and_true] at h
    obtain ⟨h1, h2, h3, h4, h5, h6, h7⟩ := h
    have heq : process_event env fs st ps =
        branchStep true (FullState.load_settings env fs) StateEmission.settings
          ⟨st, [], [], none⟩ := by
      unfold process_event
      rw [h1, h2, h3, h4, h5, h6, h7]
      simp only [branchStep_not_touched]
    rw [heq] at hq
    rcases load_settings_frame env fs st with ⟨w, hw⟩
    cases herr : (FullState.load_settings env fs st).err with
    | some e =>
      rw [branchStep_touched_err _ _ _ e herr] at hq
      simp at hq
    | none =>
      rw [branchStep_touched_ok _ _ _ herr] at hq
      simp only [List.mem_singleton] at hq
      subst hq
      refine ⟨rfl, ?_⟩
      show eqOutsideSettings (FullState.load_settings env fs st).state st
      rw [hw]
      exact ⟨rfl, rfl, rfl, rfl, rfl, rfl, rfl, rfl⟩
  · intro h q hq
    simp only [touchVec, List.cons.injEq, and_true] at h
    obtain ⟨h1, h2, h3, h4, h5, h6, h7⟩ := h
    have heq : process_event env fs st ps =
        branchStep true (FullState.load_themes env fs) StateEmission.themes
          ⟨st, [], [], none⟩ := by
      unfold process_event
      rw [h1, h2, h3, h4, h5, h6, h7]
      simp only [branchStep_not_touched]
    rw [heq] at hq
    rcases load_themes_frame env fs st with ⟨w, hw⟩
    cases herr : (FullState.load_themes env fs st).err with
    | some e =>
      rw [branchStep_touched_err _ _ _ e herr] at hq
      simp at hq
    | none =>
      rw [branchStep_touched_ok _ _ _ herr] at hq
      simp only [List.mem_singleton] at hq
      subst hq
      refine ⟨rfl, ?_⟩
      show eqOutsideThemes (FullState.load_themes env fs st).state st
      rw [hw]
      exact ⟨rfl, rfl, rfl, rfl, rfl, rfl, rfl, rfl⟩
  · intro h q hq
    simp only [touchVec, List.cons.injEq, and_true] at h
    obtain ⟨h1, h2, h3, h4, h5, h6, h7⟩ := h
    have heq : process_event env fs st ps =
        branchStep true (FullState.load_placeholders env fs) StateEmission.placeholders
          ⟨st, [], [], none⟩ := by
      unfold process_event
      rw [h1, h2, h3, h4, h5, h6, h7]
      simp only [branchStep_not_touched]
    rw [heq] at hq
    rcases load_placeholders_frame env fs st with ⟨p, s, hp, hs⟩
    cases herr : (FullState.load_placeholders env fs st).err with
    | some e =>
      rw [branchStep_touched_err _ _ _ e herr] at hq
      simp at hq
    | none =>
      rw [branchStep_touched_ok _ _ _ herr] at hq
      simp only [List.mem_singleton] at hq
      subst hq
      refine ⟨rfl, ?_⟩
      show eqOutsidePlaceholders (FullState.load_placeholders env fs st).state st
      rw [hp]
      rcases hs with hs | hs
      · subst hs
        exact ⟨rfl, rfl, rfl, rfl, rfl, rfl, rfl, rfl, rfl, rfl, Or.inl rfl⟩
      · subst hs
        exact ⟨rfl, rfl, rfl, rfl, rfl, rfl, rfl, rfl, rfl, rfl, Or.inr rfl⟩
  · intro h q hq
    simp only [touchVec, List.cons.injEq, and_true] at h
    obtain ⟨h1, h2, h3, h4, h5, h6, h7⟩ := h
    have heq : process_event env fs st ps =
        branchStep true (FullState.load_layouts env fs) StateEmission.layouts
          ⟨st, [], [], none⟩ := by
      unfold process_event
      rw [h1, h2, h3, h4, h5, h6, h7]
      simp only [branchStep_not_touched]
    rw [heq] at hq
    rcases load_layouts_frame env fs st with ⟨p, s, hp, hs⟩
    cases herr : (FullState.load_layouts env fs st).err with
    | some e =>
      rw [branchStep_touched_err _ _ _ e herr] at hq
      simp at hq
    | none =>
      rw [branchStep_touched_ok _ _ _ herr] at hq
      simp only [List.mem_singleton] at hq
      subst hq
      refine ⟨rfl, ?_⟩
      show eqOutsideLayouts (FullState.load_layouts env fs st).state st
      rw [hp]
      rcases hs with hs | hs
      · subst hs
        exact ⟨rfl, rfl, rfl, rfl, rfl, rfl, rfl, rfl, rfl, rfl, Or.inl rfl⟩
      · subst hs
        exact ⟨rfl, rfl, rfl, rfl, rfl, rfl, rfl, rfl, rfl, rfl, Or.inr rfl⟩
  · intro h q hq
    simp only [touchVec, List.cons.injEq, and_true] at h
    obtain ⟨h1, h2, h3, h4, h5, h6, h7⟩ := h
    have heq : process_event env fs st ps =
        branchStep true (FullState.load_settings_by_app env fs) StateEmission.settingsByApp
          ⟨st, [], [], none⟩ := by
      unfold process_event
      rw [h1, h2, h3, h4, h5, h6, h7]
      simp only [branchStep_not_touched]
    rw [heq] at hq
    rcases load_settings_by_app_frame env fs st with ⟨w, hw⟩
    cases herr : (FullState.load_settings_by_app env fs st).err with
    | some e =>
      rw [branchStep_touched_err _ _ _ e herr] at hq
      simp at hq
    | none =>
      rw [branchStep_touched_ok _ _ _ herr] at hq
      simp only [List.mem_singleton] at hq
      subst hq
      refine ⟨rfl, ?_⟩
      show eqOutsideApps (FullState.load_settings_by_app env fs st).state st
      rw [hw]
      exact ⟨rfl, rfl, rfl, rfl, rfl, rfl, rfl, rfl⟩

/-- Witness for C3 (amended): a themes-only batch publishes exactly the themes
notification and the published snapshot agrees with the prior one outside the
themes mapping. -/
theorem claimC3_witness :
    (StateEmission.themes,
      (⟨["data"], ["res"], ⟨⟨"p"⟩, ⟨"l"⟩, VirtualDesktopStrategy.native, []⟩, [], [], [], [],
        ⟨""⟩, []⟩ : FullState)).1 = StateEmission.themes ∧
    eqOutsideThemes
      (StateEmission.themes,
        (⟨["data"], ["res"], ⟨⟨"p"⟩, ⟨"l"⟩, VirtualDesktopStrategy.native, []⟩, [], [], [], [],
          ⟨""⟩, []⟩ : FullState)).2
      ⟨["data"], ["res"], ⟨⟨"p"⟩, ⟨"l"⟩, VirtualDesktopStrategy.native, []⟩, [], [], [], [],
        ⟨""⟩, []⟩ := by
  exact (claimC3_amended stubEnv
      ⟨none, none, none, none, some [], some [], none, none, none, none, none⟩
      ⟨["data"], ["res"], ⟨⟨"p"⟩, ⟨"l"⟩, VirtualDesktopStrategy.native, []⟩, [], [], [], [],
        ⟨""⟩, []⟩
      [["data", "themes", "t.yml"]]).2.2.2.1 (by decide)
    (StateEmission.themes,
      ⟨["data"], ["res"], ⟨⟨"p"⟩, ⟨"l"⟩, VirtualDesktopStrategy.native, []⟩, [], [], [], [],
        ⟨""⟩, []⟩) (by decide)

end Seelen
